import Mathlib

/-!
# Recorder::AppMain (HoloLensForCV, Tools/Recorder/AppMain.cpp)

A shallow embedding of the voice-commanded capture coordinator: the member
fields of `AppMain` become a record, every lifecycle hook and callback becomes
a function from a state (and what the outside world hands it) to an `Outcome`
holding the new state, the calls made on the external collaborators, and the
contract fault that cut the hook short, when there was one.
-/

namespace Recorder

/-! ## Data model -/

/-- One byte of pixel data (`uint8_t`). -/
abbrev Byte := Fin 256

/-- The pixel formats a `SoftwareBitmap` can report; only `Bgra8` is accepted. -/
inductive BitmapPixelFormat where
  | Bgra8
  | Rgba8
  | Gray8
  | Nv12
  | Unknown
  deriving DecidableEq, Repr

/-- What `GetLatestSensorFrame` hands back: `Timestamp.UniversalTime` (a 64-bit
tick count), and the `SoftwareBitmap` with its `PixelWidth`, `PixelHeight`,
`BitmapPixelFormat` and the bytes of its locked buffer. -/
structure SensorFrame where
  timestamp : Int
  pixelWidth : Int
  pixelHeight : Int
  bitmapPixelFormat : BitmapPixelFormat
  pixelBuffer : List Byte
  deriving DecidableEq, Repr

/-- Modelled from the spec: `Rendering::Texture2D` is declared outside this file.
It is a CPU-writable staging buffer created with a width and a height (which
`GetWidth` and `GetHeight` give back) in a fixed 4-byte-per-pixel format, next
to the GPU texture that `CopyCPU2GPU` fills from it. A texture that has not
been written yet holds no bytes. -/
structure Texture2D where
  width : Int
  height : Int
  cpuTexture : List Byte
  gpuTexture : List Byte
  deriving DecidableEq, Repr

/-- The sensor kinds of `HoloLensForCV::SensorType` (only `PhotoVideo` is used). -/
inductive SensorType where
  | PhotoVideo
  | Other
  deriving DecidableEq, Repr

/-- The object behind `_sensorFrameRecorder`: the sensors enabled on it. -/
structure SensorFrameRecorder where
  enabled : List SensorType
  deriving DecidableEq, Repr

/-- The object behind `_photoVideoMediaFrameSourceGroup`. -/
structure MediaFrameSourceGroup where
  recorder : SensorFrameRecorder
  deriving DecidableEq, Repr

/-- A recognition result's confidence tier. -/
inductive SpeechRecognitionConfidence where
  | High
  | Medium
  | Low
  | Rejected
  deriving DecidableEq, Repr

/-- The `args->Result` of a `ResultGenerated` event. -/
structure SpeechRecognitionResult where
  text : String
  confidence : SpeechRecognitionConfidence
  deriving DecidableEq, Repr

/-- The object behind `_speechRecognizer`: how many handlers are subscribed to
its two events, its constraint lists, and whether its continuous session has
been started. -/
structure SpeechRecognizer where
  qualityDegradingHandlers : Nat
  resultGeneratedHandlers : Nat
  constraints : List (List String)
  listening : Bool
  deriving DecidableEq, Repr

/-- The member fields of `AppMain` the coordinator reads and writes. A null
handle is `none`; a null `Platform::String^` is `none` (`OnUpdate` only compares
the slot with "start" and "stop", so that an empty string equals `nullptr` in
C++/CX makes no difference). `pendingRecorderStarts` and `pendingGroupStarts`
are not fields: they count the continuations of `StartAsync` tasks that have
been created and have not run yet. The slate renderer is an external
collaborator: the calls on it are logged, it holds none of this state. -/
structure AppMain where
  spatialPerception : Bool
  lastVoiceCommand : Option String
  photoVideoMediaFrameSourceGroup : Option MediaFrameSourceGroup
  photoVideoMediaFrameSourceGroupStarted : Bool
  sensorFrameRecorder : Option SensorFrameRecorder
  sensorFrameRecorderStarted : Bool
  cameraPreviewTimestamp : Int
  cameraPreviewTexture : Option Texture2D
  speechRecognizer : Option SpeechRecognizer
  pendingRecorderStarts : Nat
  pendingGroupStarts : Nat
  deriving DecidableEq, Repr

/-- A call on an external collaborator, in the order the code makes them. -/
inductive Call where
  | slateNew
  | slateUpdate
  | slateReleaseDeviceDependentResources
  | slateCreateDeviceDependentResources
  | recorderNew
  | recorderEnable (sensor : SensorType)
  | recorderStartAsync
  | recorderStop
  | groupNew
  | groupStartAsync
  | getLatestSensorFrame
  | textureNew (width height : Int)
  | mapCPUTexture
  | lockBuffer
  | memcpy_s (frameTimestamp : Int) (count : Nat)
  | unmapCPUTexture
  | copyCPU2GPU
  | synthesizeTextToStreamAsync
  | stopRecognitionAsync
  | recognizerNew
  | compileConstraintsAsync
  | sessionStartAsync
  | playVoiceCommandRecognitionSound
  deriving DecidableEq, Repr

/-- What cuts a hook short. Modelled from the spec: the `REQUIRES` and `ASSERT`
macros are defined outside this file; a violated one is a contract fault that
aborts the step. A call through a null handle is a null-reference fault. -/
inductive Fault where
  | nullSensorFrameRecorder
  | nullMediaFrameSourceGroup
  | requiresFailed
  | assertFailed
  | invalidParameter
  deriving DecidableEq, Repr

/-- The result of a hook: the state it left, the calls it made, and the fault
that ended it early (`none` when it ran to its end). -/
structure Outcome where
  state : AppMain
  log : List Call
  fault : Option Fault
  deriving DecidableEq, Repr

/-! ## Machine integers -/

/-- The value of an `int32_t` computation: two's-complement wrap-around. -/
def wrapInt32 (x : Int) : Int := (x + 2 ^ 31) % 2 ^ 32 - 2 ^ 31

/-- The value of `static_cast<uint32_t>(x)`. -/
def toUInt32 (x : Int) : Nat := (x % 2 ^ 32).toNat

/-- The value of an `int32_t` passed as a `rsize_t`, with a 64-bit `size_t`; with
a 32-bit `size_t` it is the value of `toUInt32`, and the copy that follows a
passed length assertion fits either way. -/
def toSizeT (x : Int) : Nat := (x % 2 ^ 64).toNat

/-- The `memcpy_s(dest, destSize, src, count)` of the C runtime: copies `count`
bytes of `src` when they fit in `destSize`, and reports an invalid parameter
otherwise. The destination is the mapped staging buffer, which is written
from its start. -/
def memcpy_s (destSize : Nat) (src : List Byte) (count : Nat) : Option (List Byte) :=
  if count ≤ destSize then some (src.take count) else none

/-! ## The recorder commands and the frame ingestion of `OnUpdate` -/

/-- Lines 98-121 of `OnUpdate`: the voice command check. `StartAsync` only
creates a task; its continuation (which sets `_sensorFrameRecorderStarted`)
runs later, see `Event.recorderStartCompleted`. -/
def checkVoiceCommands (s : AppMain) : Outcome :=
  if s.lastVoiceCommand = some "start" then
    if !s.sensorFrameRecorderStarted then
      match s.sensorFrameRecorder with
      | none => ⟨s, [], some .nullSensorFrameRecorder⟩
      | some _ =>
        ⟨{ s with pendingRecorderStarts := s.pendingRecorderStarts + 1 },
          [.recorderStartAsync], none⟩
    else ⟨s, [], none⟩
  else if s.lastVoiceCommand = some "stop" then
    if s.sensorFrameRecorderStarted then
      match s.sensorFrameRecorder with
      | none => ⟨s, [], some .nullSensorFrameRecorder⟩
      | some _ =>
        ⟨{ s with sensorFrameRecorderStarted := false }, [.recorderStop], none⟩
    else ⟨s, [], none⟩
  else ⟨s, [], none⟩

/-- The texture `OnUpdate` writes to (lines 149-157): the one already there, or
a new one with the frame's width and height. -/
def stagingTextureFor (s : AppMain) (f : SensorFrame) : Texture2D :=
  match s.cameraPreviewTexture with
  | none => ⟨f.pixelWidth, f.pixelHeight, [], []⟩
  | some t => t

/-- The calls of lines 149-157: a texture is created only when there is none. -/
def stagingTextureCalls (s : AppMain) (f : SensorFrame) : List Call :=
  match s.cameraPreviewTexture with
  | none => [.textureNew f.pixelWidth f.pixelHeight]
  | some _ => []

/-- The `bytesToCopy` of line 180: an `int32_t` product. -/
def bytesToCopy (t : Texture2D) : Int := wrapInt32 (t.width * t.height * 4)

/-- Lines 128-194 of `OnUpdate`: frame ingestion. `latest` is what
`GetLatestSensorFrame(PhotoVideo)` returns when it is called on this tick. -/
def processSensorData (s : AppMain) (latest : Option SensorFrame) : Outcome :=
  if !s.photoVideoMediaFrameSourceGroupStarted then ⟨s, [], none⟩
  else
    match s.photoVideoMediaFrameSourceGroup with
    | none => ⟨s, [], some .nullMediaFrameSourceGroup⟩
    | some _ =>
      match latest with
      | none => ⟨s, [.getLatestSensorFrame], none⟩
      | some f =>
        if s.cameraPreviewTimestamp = f.timestamp then ⟨s, [.getLatestSensorFrame], none⟩
        else
          let t := stagingTextureFor s f
          let s1 : AppMain :=
            { s with cameraPreviewTimestamp := f.timestamp, cameraPreviewTexture := some t }
          let calls := .getLatestSensorFrame :: stagingTextureCalls s f ++ [.mapCPUTexture]
          if f.bitmapPixelFormat ≠ .Bgra8 then ⟨s1, calls, some .requiresFailed⟩
          else if toUInt32 (bytesToCopy t) ≠ f.pixelBuffer.length then
            ⟨s1, calls ++ [.lockBuffer], some .assertFailed⟩
          else
            match memcpy_s (toSizeT (bytesToCopy t)) f.pixelBuffer f.pixelBuffer.length with
            | none => ⟨s1, calls ++ [.lockBuffer], some .invalidParameter⟩
            | some bytes =>
              ⟨{ s1 with cameraPreviewTexture := some { t with cpuTexture := bytes, gpuTexture := bytes } },
                calls ++ [.lockBuffer, .memcpy_s f.timestamp f.pixelBuffer.length,
                  .unmapCPUTexture, .copyCPU2GPU], none⟩

/-- The per-frame hook `AppMain::OnUpdate` (lines 75-195): update the slate,
act on the voice command, clear the slot (line 123), ingest the camera frame.
A null-reference fault in the command check leaves the hook before line 123. -/
def OnUpdate (s : AppMain) (latest : Option SensorFrame) : Outcome :=
  let o1 := checkVoiceCommands s
  match o1.fault with
  | some e => ⟨o1.state, .slateUpdate :: o1.log, some e⟩
  | none =>
    let o2 := processSensorData { o1.state with lastVoiceCommand := none } latest
    ⟨o2.state, .slateUpdate :: o1.log ++ o2.log, o2.fault⟩

/-! ## Device loss and restore, and the frame source group -/

/-- The hook `AppMain::OnDeviceLost` (lines 212-224). -/
def OnDeviceLost (s : AppMain) : Outcome :=
  ⟨{ s with
      photoVideoMediaFrameSourceGroup := none
      photoVideoMediaFrameSourceGroupStarted := false
      sensorFrameRecorder := none
      sensorFrameRecorderStarted := false
      cameraPreviewTexture := none
      cameraPreviewTimestamp := 0 },
    [.slateReleaseDeviceDependentResources], none⟩

/-- The guard of `StartHoloLensMediaFrameSourceGroup` (lines 495-498). -/
def startGuard (s : AppMain) : Bool :=
  !s.photoVideoMediaFrameSourceGroupStarted && !s.sensorFrameRecorderStarted &&
    s.spatialPerception

/-- The function `AppMain::StartHoloLensMediaFrameSourceGroup` (lines 493-522). The
continuation that sets `_photoVideoMediaFrameSourceGroupStarted` runs later,
see `Event.groupStartCompleted`. -/
def StartHoloLensMediaFrameSourceGroup (s : AppMain) : Outcome :=
  if !startGuard s then ⟨s, [], some .requiresFailed⟩
  else
    let recorder : SensorFrameRecorder := ⟨[.PhotoVideo]⟩
    ⟨{ s with
        sensorFrameRecorder := some recorder
        photoVideoMediaFrameSourceGroup := some ⟨recorder⟩
        pendingGroupStarts := s.pendingGroupStarts + 1 },
      [.recorderNew, .recorderEnable .PhotoVideo, .groupNew, .groupStartAsync], none⟩

/-- The hook `AppMain::OnDeviceRestored` (lines 228-233). -/
def OnDeviceRestored (s : AppMain) : Outcome :=
  let o := StartHoloLensMediaFrameSourceGroup s
  ⟨o.state, .slateCreateDeviceDependentResources :: o.log, o.fault⟩

/-! ## Speech recognition -/

/-- The `Status` of a constraint compilation result. -/
inductive SpeechRecognitionResultStatus where
  | Success
  | TopicLanguageNotSupported
  | GrammarLanguageNotSupported
  | GrammarCompilationFailure
  | AudioQualityFailure
  | UserCanceled
  | Unknown
  | TimeoutExceeded
  | PauseLimitExceeded
  | NetworkFailure
  | MicrophoneUnavailable
  deriving DecidableEq, Repr

/-- How `CompileConstraintsAsync` ends: `previousTask.get()` throws, or gives
a result with a status. -/
inductive CompilationOutcome where
  | threw
  | status (st : SpeechRecognitionResultStatus)
  deriving DecidableEq, Repr

/-- What the speech platform does when `StartRecognizeSpeechCommands` calls it:
whether stopping the current recognizer throws, whether `ref new` yields a
recognizer, how constraint compilation ends, and whether starting the
continuous session throws. -/
structure SpeechEnv where
  stopRecognitionThrows : Bool
  recognizerCreated : Bool
  compilation : CompilationOutcome
  sessionStartThrows : Bool
  deriving DecidableEq, Repr

/-- How a task chain ends: the state it left, the calls it made, and the value
it completed with (`none` when the task ended with an exception that no
continuation caught). The continuations of one chain are run in order, as one
step. -/
structure TaskOutcome (α : Type) where
  state : AppMain
  log : List Call
  result : Option α

/-- The function `AppMain::StopCurrentRecognizerIfExists` (lines 284-305). The
continuation that removes the two handlers takes no task argument, so it does
not run when `StopRecognitionAsync` throws. The recognizer's
`ContinuousRecognitionSession` is taken to be there (the platform creates it
with the recognizer). -/
def StopCurrentRecognizerIfExists (env : SpeechEnv) (s : AppMain) : TaskOutcome Unit :=
  match s.speechRecognizer with
  | some r =>
    if env.stopRecognitionThrows then ⟨s, [.stopRecognitionAsync], none⟩
    else
      let stopped : SpeechRecognizer :=
        { r with
          listening := false
          qualityDegradingHandlers := r.qualityDegradingHandlers - 1
          resultGeneratedHandlers := r.resultGeneratedHandlers - 1 }
      ⟨{ s with speechRecognizer := some stopped }, [.stopRecognitionAsync], some ()⟩
  | none => ⟨s, [], some ()⟩

/-- What a call that returns a value leaves: the state, the calls made, the
value. -/
structure Returned (α : Type) where
  state : AppMain
  log : List Call
  value : α

/-- The function `AppMain::InitializeSpeechRecognizer` (lines 307-328): a new recognizer with
one handler on each of its two events, or `false` when there is none. -/
def InitializeSpeechRecognizer (env : SpeechEnv) (s : AppMain) : Returned Bool :=
  if env.recognizerCreated then
    ⟨{ s with speechRecognizer := some ⟨1, 1, [], false⟩ }, [.recognizerNew], true⟩
  else ⟨{ s with speechRecognizer := none }, [.recognizerNew], false⟩

/-- Lines 339-351: the constraint list is cleared and set to the one list
of commands. -/
def setConstraints (s : AppMain) : AppMain :=
  { s with speechRecognizer :=
      s.speechRecognizer.map fun r => { r with constraints := [["start", "stop"]] } }

/-- Lines 365-384: the continuous session is started; `true` unless
`startAsyncTask.get()` throws. -/
def startContinuousSession (env : SpeechEnv) (s : AppMain) : Returned Bool :=
  if env.sessionStartThrows then ⟨s, [.sessionStartAsync], false⟩
  else
    ⟨{ s with speechRecognizer := s.speechRecognizer.map fun r => { r with listening := true } },
      [.sessionStartAsync], true⟩

/-- Lines 353-407: constraint compilation and what follows it. -/
def compileAndListen (env : SpeechEnv) (s : AppMain) : Returned Bool :=
  match env.compilation with
  | .threw => ⟨s, [.compileConstraintsAsync], false⟩
  | .status st =>
    if st = .Success then
      let started := startContinuousSession env s
      ⟨started.state, .compileConstraintsAsync :: started.log, started.value⟩
    else ⟨s, [.compileConstraintsAsync], false⟩

/-- The function `AppMain::StartRecognizeSpeechCommands` (lines 330-409): stop the
current recognizer, create a new one, set the constraints, compile them, and
start listening when compilation reports Success. -/
def StartRecognizeSpeechCommands (env : SpeechEnv) (s : AppMain) : TaskOutcome Bool :=
  let stopped := StopCurrentRecognizerIfExists env s
  match stopped.result with
  | none => ⟨stopped.state, stopped.log, none⟩
  | some () =>
    let init := InitializeSpeechRecognizer env stopped.state
    if !init.value then ⟨init.state, stopped.log ++ init.log, some false⟩
    else
      let heard := compileAndListen env (setConstraints init.state)
      ⟨heard.state, stopped.log ++ init.log ++ heard.log, some heard.value⟩

/-- The handler `AppMain::OnResultGenerated` (lines 411-436); the sound is played by
`PlayVoiceCommandRecognitionSound`. -/
def OnResultGenerated (s : AppMain) (r : SpeechRecognitionResult) : Outcome :=
  if r.confidence = .High ∨ r.confidence = .Medium then
    ⟨{ s with lastVoiceCommand := some r.text }, [.playVoiceCommandRecognitionSound], none⟩
  else ⟨s, [], none⟩

/-- The hook `AppMain::OnHolographicSpaceChanged` (lines 36-60). The task that
`StartRecognizeSpeechCommands` returns is dropped, so its result is not
looked at. -/
def OnHolographicSpaceChanged (env : SpeechEnv) (s : AppMain) : Outcome :=
  let o := StartHoloLensMediaFrameSourceGroup s
  match o.fault with
  | some e => ⟨o.state, .slateNew :: o.log, some e⟩
  | none =>
    let t := StartRecognizeSpeechCommands env o.state
    ⟨t.state, .slateNew :: o.log ++ [.synthesizeTextToStreamAsync] ++ t.log, none⟩

/-! ## Runs -/

/-- What can happen to the coordinator: a lifecycle hook, a recognition result,
or the continuation of an outstanding `StartAsync` task. -/
inductive Event where
  | holographicSpaceChanged (env : SpeechEnv)
  | resultGenerated (r : SpeechRecognitionResult)
  | update (latest : Option SensorFrame)
  | recorderStartCompleted
  | groupStartCompleted
  | deviceLost
  | deviceRestored
  deriving DecidableEq, Repr

/-- The continuation of lines 106-110; it runs once for each task created. -/
def recorderStartCompleted (s : AppMain) : Outcome :=
  if s.pendingRecorderStarts = 0 then ⟨s, [], none⟩
  else
    ⟨{ s with
        pendingRecorderStarts := s.pendingRecorderStarts - 1
        sensorFrameRecorderStarted := true }, [], none⟩

/-- The continuation of lines 517-521; it runs once for each task created. -/
def groupStartCompleted (s : AppMain) : Outcome :=
  if s.pendingGroupStarts = 0 then ⟨s, [], none⟩
  else
    ⟨{ s with
        pendingGroupStarts := s.pendingGroupStarts - 1
        photoVideoMediaFrameSourceGroupStarted := true }, [], none⟩

/-- One event. -/
def step (s : AppMain) : Event → Outcome
  | .holographicSpaceChanged env => OnHolographicSpaceChanged env s
  | .resultGenerated r => OnResultGenerated s r
  | .update latest => OnUpdate s latest
  | .recorderStartCompleted => recorderStartCompleted s
  | .groupStartCompleted => groupStartCompleted s
  | .deviceLost => OnDeviceLost s
  | .deviceRestored => OnDeviceRestored s

/-- A run: the events in order, up to the first fault. -/
def run (s : AppMain) : List Event → Outcome
  | [] => ⟨s, [], none⟩
  | e :: es =>
    let o := step s e
    match o.fault with
    | some _ => o
    | none =>
      let r := run o.state es
      ⟨r.state, o.log ++ r.log, r.fault⟩

/-- The state the constructor leaves (lines 27-34), once the base class has
its spatial perception. -/
def initial : AppMain :=
  { spatialPerception := true
    lastVoiceCommand := none
    photoVideoMediaFrameSourceGroup := none
    photoVideoMediaFrameSourceGroupStarted := false
    sensorFrameRecorder := none
    sensorFrameRecorderStarted := false
    cameraPreviewTimestamp := 0
    cameraPreviewTexture := none
    speechRecognizer := none
    pendingRecorderStarts := 0
    pendingGroupStarts := 0 }

/-- A platform on which every speech call succeeds. -/
def speechOk : SpeechEnv := ⟨false, true, .status .Success, false⟩

/-- A recognized "start". -/
def sayStart : Event := .resultGenerated ⟨"start", .High⟩

/-- A recognized "stop". -/
def sayStop : Event := .resultGenerated ⟨"stop", .Medium⟩

/-- The state after `OnHolographicSpaceChanged` on a platform where speech
works: handles created, nothing started yet. -/
def spaceReady : AppMain := (OnHolographicSpaceChanged speechOk initial).state

/-- A state after a device loss and a restore whose frame source group has
started again: a frame was ingested, the device was lost and restored, and the
new group's `StartAsync` completed. -/
def afterRestore : AppMain :=
  (run spaceReady [.groupStartCompleted, .update (some ⟨100, 1, 1, .Bgra8, [0, 0, 0, 255]⟩),
    .deviceLost, .deviceRestored, .groupStartCompleted]).state

/-- A state with the recorder running and a recognized "stop" in the slot. -/
def runningStopHeard : AppMain :=
  (run spaceReady
    [.groupStartCompleted, sayStart, .update none, .recorderStartCompleted, sayStop]).state

/-- A state with the frame source group started and one 1×1 frame, with
timestamp 100, ingested. -/
def firstFrameIngested : AppMain :=
  (run spaceReady [.groupStartCompleted,
    .update (some ⟨100, 1, 1, .Bgra8, [0, 0, 0, 255]⟩)]).state

/-- A 2×1 `Bgra8` frame with the given timestamp. -/
def wide (T : Int) : SensorFrame := ⟨T, 2, 1, .Bgra8, [0, 0, 0, 255, 0, 0, 0, 255]⟩

/-- The invariant the guards of `OnUpdate` rely on: a set started flag has its
handle. -/
def flagsHaveHandles (s : AppMain) : Bool :=
  (!s.sensorFrameRecorderStarted || s.sensorFrameRecorder.isSome) &&
    (!s.photoVideoMediaFrameSourceGroupStarted || s.photoVideoMediaFrameSourceGroup.isSome)

/-- Does every outstanding `StartAsync` still have the handle it was called
through? -/
def startsHaveHandles (s : AppMain) : Bool :=
  (s.pendingRecorderStarts == 0 || s.sensorFrameRecorder.isSome) &&
    (s.pendingGroupStarts == 0 || s.photoVideoMediaFrameSourceGroup.isSome)

/-- Does every device loss of the run come at a moment when no `StartAsync` is
outstanding? The run is followed up to its first fault, as `run` does. -/
def lossesSettled : AppMain → List Event → Bool
  | _, [] => true
  | s, e :: es =>
    (match e with
      | .deviceLost => s.pendingRecorderStarts == 0 && s.pendingGroupStarts == 0
      | _ => true) &&
    (match (step s e).fault with
      | some _ => true
      | none => lossesSettled (step s e).state es)

/-- The state when the device is lost while the frame source group's
`StartAsync` is outstanding and its continuation runs afterwards. -/
def groupStartedAfterLoss : AppMain :=
  (run initial [.holographicSpaceChanged speechOk, .deviceLost, .groupStartCompleted]).state

/-- The state when the device is lost while the recorder's `StartAsync` is
outstanding and its continuation runs afterwards, with a "stop" then heard. -/
def recorderStartedAfterLoss : AppMain :=
  (run initial [.holographicSpaceChanged speechOk, sayStart, .update none, .deviceLost,
    .recorderStartCompleted, sayStop]).state

/-- The state when a "start" is heard after the device was lost and before it
is restored: the recorder handle is null and its started flag clear. -/
def startHeardAfterLoss : AppMain :=
  (run initial [.holographicSpaceChanged speechOk, .groupStartCompleted, .deviceLost,
    sayStart]).state

/-! ## Observations on logs and event lists -/

/-- Is the call the copy of a frame with timestamp `T` into the staging texture? -/
def isCopyOf (T : Int) : Call → Bool
  | .memcpy_s t _ => decide (t = T)
  | _ => false

/-- How many times a frame with timestamp `T` was copied into the staging texture. -/
def copiesOf (T : Int) (log : List Call) : Nat := log.countP (isCopyOf T)

/-- Is the call a copy into the staging texture? -/
def isCopy : Call → Bool
  | .memcpy_s _ _ => true
  | _ => false

/-- Is the call one on the recorder's start/stop interface? -/
def isRecorderCall : Call → Bool
  | .recorderStartAsync => true
  | .recorderStop => true
  | _ => false

/-- The calls of a log on the recorder's start/stop interface, in order. -/
def recorderCalls (log : List Call) : List Call := log.filter isRecorderCall

/-- The timestamps of the frames the source returns on the ticks of a run. -/
def returnedTimestamps : List Event → List Int
  | [] => []
  | .update (some f) :: es => f.timestamp :: returnedTimestamps es
  | _ :: es => returnedTimestamps es

/-- Does a tick get past the three early returns of lines 128-145: the group's
started flag is set, the source returns a frame, and the frame's timestamp
differs from the cursor? -/
def ingests (s : AppMain) (latest : Option SensorFrame) : Bool :=
  match latest with
  | none => false
  | some f => s.photoVideoMediaFrameSourceGroupStarted && decide (s.cameraPreviewTimestamp ≠ f.timestamp)

/-- Does no tick of the run get past the early returns of frame ingestion? The
run is followed up to its first fault, as `run` does. -/
def quiet : AppMain → List Event → Bool
  | _, [] => true
  | s, e :: es =>
    (match e with
      | .update latest => !ingests s latest
      | _ => true) &&
    (match (step s e).fault with
      | some _ => true
      | none => quiet (step s e).state es)

/-- Does the log hold a copy into the staging texture and its upload? -/
def copiedAndUploaded (log : List Call) : Bool :=
  log.any isCopy && log.contains .copyCPU2GPU

/-- The two contract checks of lines 167 and 183 for a frame written to the
texture `t`: the format is `Bgra8` and the byte length is the 32-bit value of
`bytesToCopy`. -/
def contractHolds (t : Texture2D) (f : SensorFrame) : Bool :=
  decide (f.bitmapPixelFormat = .Bgra8) && decide (toUInt32 (bytesToCopy t) = f.pixelBuffer.length)

/-- Is the result's confidence High or Medium? -/
def accepted (r : SpeechRecognitionResult) : Bool :=
  decide (r.confidence = .High ∨ r.confidence = .Medium)

/-- The claim's words for the command a tick acts on after a sequence of
results: the text of the last result whose confidence is High or Medium, or no
command when there is none. -/
def lastAccepted (rs : List SpeechRecognitionResult) : Option String :=
  (rs.filter accepted).getLast?.map (·.text)

/-- A 1×1 `Bgra8` frame with the given timestamp. -/
def pixel (T : Int) : SensorFrame := ⟨T, 1, 1, .Bgra8, [0, 0, 0, 255]⟩

/-! ## What frame ingestion leaves alone -/

theorem processSensorData_frame_fields (s : AppMain) (latest : Option SensorFrame) :
    ∃ ts tex, (processSensorData s latest).state =
      { s with cameraPreviewTimestamp := ts, cameraPreviewTexture := tex } := by
  unfold processSensorData
  dsimp only
  repeat' split
  all_goals exact ⟨_, _, rfl⟩

theorem processSensorData_recorderStarted (s : AppMain) (latest : Option SensorFrame) :
    (processSensorData s latest).state.sensorFrameRecorderStarted = s.sensorFrameRecorderStarted := by
  obtain ⟨ts, tex, h⟩ := processSensorData_frame_fields s latest
  rw [h]

theorem processSensorData_no_startAsync (s : AppMain) (latest : Option SensorFrame) :
    Call.recorderStartAsync ∉ (processSensorData s latest).log := by
  unfold processSensorData stagingTextureCalls
  dsimp only
  repeat' split
  all_goals simp

theorem processSensorData_count_startAsync (s : AppMain) (latest : Option SensorFrame) :
    (processSensorData s latest).log.count .recorderStartAsync = 0 :=
  List.count_eq_zero.mpr (processSensorData_no_startAsync s latest)

/-! ## The voice command check, case by case -/

theorem checkVoiceCommands_start_stopped (s : AppMain) (r : SensorFrameRecorder)
    (hc : s.lastVoiceCommand = some "start") (hs : s.sensorFrameRecorderStarted = false)
    (hr : s.sensorFrameRecorder = some r) :
    checkVoiceCommands s =
      ⟨{ s with pendingRecorderStarts := s.pendingRecorderStarts + 1 }, [.recorderStartAsync], none⟩ := by
  simp [checkVoiceCommands, hc, hs, hr]

theorem checkVoiceCommands_start_running (s : AppMain)
    (hc : s.lastVoiceCommand = some "start") (hs : s.sensorFrameRecorderStarted = true) :
    checkVoiceCommands s = ⟨s, [], none⟩ := by
  simp [checkVoiceCommands, hc, hs]

theorem checkVoiceCommands_stop_running (s : AppMain) (r : SensorFrameRecorder)
    (hc : s.lastVoiceCommand = some "stop") (hs : s.sensorFrameRecorderStarted = true)
    (hr : s.sensorFrameRecorder = some r) :
    checkVoiceCommands s = ⟨{ s with sensorFrameRecorderStarted := false }, [.recorderStop], none⟩ := by
  simp [checkVoiceCommands, hc, hs, hr]

theorem checkVoiceCommands_stop_stopped (s : AppMain)
    (hc : s.lastVoiceCommand = some "stop") (hs : s.sensorFrameRecorderStarted = false) :
    checkVoiceCommands s = ⟨s, [], none⟩ := by
  simp [checkVoiceCommands, hc, hs]

theorem checkVoiceCommands_running_no_startAsync (s : AppMain)
    (hs : s.sensorFrameRecorderStarted = true) :
    Call.recorderStartAsync ∉ (checkVoiceCommands s).log := by
  unfold checkVoiceCommands
  repeat' split
  all_goals simp_all

/-! ## `OnUpdate` through its two halves -/

theorem OnUpdate_of_fault (s : AppMain) (latest : Option SensorFrame) (e : Fault)
    (h : (checkVoiceCommands s).fault = some e) :
    OnUpdate s latest =
      ⟨(checkVoiceCommands s).state, .slateUpdate :: (checkVoiceCommands s).log, some e⟩ := by
  simp [OnUpdate, h]

theorem OnUpdate_of_ok (s : AppMain) (latest : Option SensorFrame)
    (h : (checkVoiceCommands s).fault = none) :
    OnUpdate s latest =
      ⟨(processSensorData { (checkVoiceCommands s).state with lastVoiceCommand := none } latest).state,
        .slateUpdate :: (checkVoiceCommands s).log ++
          (processSensorData { (checkVoiceCommands s).state with lastVoiceCommand := none } latest).log,
        (processSensorData { (checkVoiceCommands s).state with lastVoiceCommand := none } latest).fault⟩ := by
  simp [OnUpdate, h]

theorem OnUpdate_count_startAsync (s : AppMain) (latest : Option SensorFrame) :
    (OnUpdate s latest).log.count .recorderStartAsync =
      (checkVoiceCommands s).log.count .recorderStartAsync := by
  cases h : (checkVoiceCommands s).fault with
  | some e => rw [OnUpdate_of_fault s latest e h]; simp [List.count_cons]
  | none =>
    rw [OnUpdate_of_ok s latest h]
    simp [List.count_cons, List.count_append, processSensorData_count_startAsync]

theorem OnUpdate_recorderStarted (s : AppMain) (latest : Option SensorFrame) :
    (OnUpdate s latest).state.sensorFrameRecorderStarted =
      (checkVoiceCommands s).state.sensorFrameRecorderStarted := by
  cases h : (checkVoiceCommands s).fault with
  | some e => rw [OnUpdate_of_fault s latest e h]
  | none => rw [OnUpdate_of_ok s latest h]; simp [processSensorData_recorderStarted]

theorem OnUpdate_pendingRecorderStarts (s : AppMain) (latest : Option SensorFrame) :
    (OnUpdate s latest).state.pendingRecorderStarts =
      (checkVoiceCommands s).state.pendingRecorderStarts := by
  cases h : (checkVoiceCommands s).fault with
  | some e => rw [OnUpdate_of_fault s latest e h]
  | none =>
    rw [OnUpdate_of_ok s latest h]
    obtain ⟨ts, tex, h2⟩ := processSensorData_frame_fields
      { (checkVoiceCommands s).state with lastVoiceCommand := none } latest
    simp [h2]

/-! ## Runs, one event at a time -/

theorem run_cons_fault (s : AppMain) (e : Event) (es : List Event) (f : Fault)
    (h : (step s e).fault = some f) : run s (e :: es) = step s e := by
  simp [run, h]

theorem run_cons_ok (s : AppMain) (e : Event) (es : List Event)
    (h : (step s e).fault = none) :
    run s (e :: es) =
      ⟨(run (step s e).state es).state, (step s e).log ++ (run (step s e).state es).log,
        (run (step s e).state es).fault⟩ := by
  simp [run, h]

theorem run_single (s : AppMain) (e : Event) : run s [e] = step s e := by
  cases h : (step s e).fault with
  | some f => exact run_cons_fault s e [] f h
  | none => rw [run_cons_ok s e [] h]; simp [run, ← h]

theorem step_resultGenerated_accepted (s : AppMain) (t : String) (c : SpeechRecognitionConfidence)
    (h : c = .High ∨ c = .Medium) :
    step s (.resultGenerated ⟨t, c⟩) =
      ⟨{ s with lastVoiceCommand := some t }, [.playVoiceCommandRecognitionSound], none⟩ := by
  simp [step, OnResultGenerated, h]

theorem step_recorderStartCompleted (s : AppMain) (h : s.pendingRecorderStarts ≠ 0) :
    step s .recorderStartCompleted =
      ⟨{ s with
          pendingRecorderStarts := s.pendingRecorderStarts - 1
          sensorFrameRecorderStarted := true }, [], none⟩ := by
  simp [step, recorderStartCompleted, h]

/-- Scenario A with the completion of the first start between the two ticks. -/
theorem scenarioA_completed_between (s : AppMain) (r : SensorFrameRecorder)
    (c1 c2 : SpeechRecognitionConfidence) (l1 l2 : Option SensorFrame)
    (hs : s.sensorFrameRecorderStarted = false) (hr : s.sensorFrameRecorder = some r)
    (h1 : c1 = .High ∨ c1 = .Medium) (h2 : c2 = .High ∨ c2 = .Medium) :
    (run s [.resultGenerated ⟨"start", c1⟩, .update l1, .recorderStartCompleted,
      .resultGenerated ⟨"start", c2⟩, .update l2]).log.count .recorderStartAsync = 1 ∧
    ((run s [.resultGenerated ⟨"start", c1⟩, .update l1, .recorderStartCompleted,
      .resultGenerated ⟨"start", c2⟩, .update l2]).fault = none →
      (run s [.resultGenerated ⟨"start", c1⟩, .update l1, .recorderStartCompleted,
        .resultGenerated ⟨"start", c2⟩, .update l2]).state.sensorFrameRecorderStarted = true) := by
  have e1 := step_resultGenerated_accepted s "start" c1 h1
  rw [run_cons_ok _ _ _ (by rw [e1]), e1]
  have hcv := checkVoiceCommands_start_stopped { s with lastVoiceCommand := some "start" } r rfl hs hr
  have hcount : (step { s with lastVoiceCommand := some "start" } (.update l1)).log.count
      .recorderStartAsync = 1 := by
    simp [step, OnUpdate_count_startAsync, hcv]
  cases hf : (step { s with lastVoiceCommand := some "start" } (.update l1)).fault with
  | some f =>
    rw [run_cons_fault _ _ _ f hf]
    refine ⟨?_, ?_⟩
    · simpa [List.count_cons, List.count_append] using hcount
    · intro h; simp [hf] at h
  | none =>
    rw [run_cons_ok _ _ _ hf]
    generalize hs2 : (step { s with lastVoiceCommand := some "start" } (.update l1)).state = s2
    have hp2 : s2.pendingRecorderStarts ≠ 0 := by
      rw [← hs2]; simp [step, OnUpdate_pendingRecorderStarts, hcv]
    have e3 := step_recorderStartCompleted s2 hp2
    rw [run_cons_ok _ _ _ (by rw [e3]), e3]
    have e4 := step_resultGenerated_accepted
      { s2 with
          pendingRecorderStarts := s2.pendingRecorderStarts - 1
          sensorFrameRecorderStarted := true } "start" c2 h2
    rw [run_cons_ok _ _ _ (by rw [e4]), e4, run_single]
    have hcv5 := checkVoiceCommands_start_running
      { s2 with
          pendingRecorderStarts := s2.pendingRecorderStarts - 1
          sensorFrameRecorderStarted := true
          lastVoiceCommand := some "start" } rfl rfl
    refine ⟨?_, ?_⟩
    · simp only [step] at hcount ⊢
      simp [List.count_cons, List.count_append, OnUpdate_count_startAsync, hcv5, hcount]
    · intro _
      simp only [step]
      rw [OnUpdate_recorderStarted, hcv5]

/-! ## C1: the recorder start guard -/

/-- C1, as stated, fails: from the Stopped state after `OnHolographicSpaceChanged`,
two consecutive ticks that each carry "start", with the first start still
outstanding at the second, call `StartAsync` twice (the second one while the
first is outstanding) and end with the started flag clear. -/
theorem C1_two_starts_while_first_outstanding :
    spaceReady.sensorFrameRecorderStarted = false ∧ spaceReady.pendingRecorderStarts = 0 ∧
    (run spaceReady [sayStart, .update none]).state.pendingRecorderStarts = 1 ∧
    Call.recorderStartAsync ∈
      (run (run spaceReady [sayStart, .update none]).state [sayStart, .update none]).log ∧
    (run spaceReady [sayStart, .update none, sayStart, .update none]).log.count
      .recorderStartAsync = 2 ∧
    (run spaceReady [sayStart, .update none, sayStart, .update none]).fault = none ∧
    (run spaceReady [sayStart, .update none, sayStart, .update none]).state.sensorFrameRecorderStarted
      = false := by
  decide

/-- C1 (amended): at every state of every run, a tick makes no `StartAsync`
call on the recorder while the started flag is set (an earlier start has
completed without a later stop); and from a state with the flag clear and a
recorder present, two ticks that each carry an accepted "start", with the
completion of the first start between them, make exactly one `StartAsync`
call and, when no tick faults, end with the flag set. -/
theorem C1_start_guarded_by_started_flag (s0 : AppMain) (es : List Event)
    (r : SensorFrameRecorder) (c1 c2 : SpeechRecognitionConfidence)
    (latest l1 l2 : Option SensorFrame)
    (h1 : c1 = .High ∨ c1 = .Medium) (h2 : c2 = .High ∨ c2 = .Medium) :
    ((run s0 es).state.sensorFrameRecorderStarted = true →
      Call.recorderStartAsync ∉ (OnUpdate (run s0 es).state latest).log) ∧
    ((run s0 es).state.sensorFrameRecorderStarted = false →
      (run s0 es).state.sensorFrameRecorder = some r →
      (run (run s0 es).state [.resultGenerated ⟨"start", c1⟩, .update l1, .recorderStartCompleted,
        .resultGenerated ⟨"start", c2⟩, .update l2]).log.count .recorderStartAsync = 1 ∧
      ((run (run s0 es).state [.resultGenerated ⟨"start", c1⟩, .update l1,
        .recorderStartCompleted, .resultGenerated ⟨"start", c2⟩, .update l2]).fault = none →
        (run (run s0 es).state [.resultGenerated ⟨"start", c1⟩, .update l1,
          .recorderStartCompleted, .resultGenerated ⟨"start", c2⟩,
          .update l2]).state.sensorFrameRecorderStarted = true)) := by
  refine ⟨fun hrun hmem => ?_, fun hs hr => scenarioA_completed_between _ r c1 c2 l1 l2 hs hr h1 h2⟩
  have hcount := OnUpdate_count_startAsync (run s0 es).state latest
  rw [List.count_eq_zero.mpr (checkVoiceCommands_running_no_startAsync _ hrun)] at hcount
  exact (List.count_eq_zero.mp hcount) hmem

/-- C1 witness: the amended claim at the run that starts with
`OnHolographicSpaceChanged`, with a camera frame on the second tick. -/
theorem C1_start_guarded_by_started_flag_witness :
    (run (run initial [.holographicSpaceChanged speechOk]).state
        [.resultGenerated ⟨"start", .High⟩, .update none, .recorderStartCompleted,
          .resultGenerated ⟨"start", .Medium⟩, .update (some (pixel 100))]).log.count
      .recorderStartAsync = 1 :=
  ((C1_start_guarded_by_started_flag initial [.holographicSpaceChanged speechOk]
    ⟨[.PhotoVideo]⟩ .High .Medium none none (some (pixel 100)) (Or.inl rfl) (Or.inr rfl)).2
      (by decide) (by decide)).1

/-! ## Frame ingestion, case by case -/

theorem memcpy_s_after_assert (x : Int) (src : List Byte)
    (h : toUInt32 (wrapInt32 x) = src.length) :
    memcpy_s (toSizeT (wrapInt32 x)) src src.length = some src := by
  have hle : src.length ≤ toSizeT (wrapInt32 x) := by
    unfold toUInt32 wrapInt32 at h
    unfold toSizeT wrapInt32
    omega
  simp [memcpy_s, hle]

theorem processSensorData_not_started (s : AppMain) (latest : Option SensorFrame)
    (h : s.photoVideoMediaFrameSourceGroupStarted = false) :
    processSensorData s latest = ⟨s, [], none⟩ := by
  simp [processSensorData, h]

theorem processSensorData_null_group (s : AppMain) (latest : Option SensorFrame)
    (h : s.photoVideoMediaFrameSourceGroupStarted = true)
    (hg : s.photoVideoMediaFrameSourceGroup = none) :
    processSensorData s latest = ⟨s, [], some .nullMediaFrameSourceGroup⟩ := by
  simp [processSensorData, h, hg]

theorem processSensorData_no_frame (s : AppMain) (g : MediaFrameSourceGroup)
    (h : s.photoVideoMediaFrameSourceGroupStarted = true)
    (hg : s.photoVideoMediaFrameSourceGroup = some g) :
    processSensorData s none = ⟨s, [.getLatestSensorFrame], none⟩ := by
  simp [processSensorData, h, hg]

theorem processSensorData_same_timestamp (s : AppMain) (g : MediaFrameSourceGroup)
    (f : SensorFrame) (h : s.photoVideoMediaFrameSourceGroupStarted = true)
    (hg : s.photoVideoMediaFrameSourceGroup = some g)
    (ht : s.cameraPreviewTimestamp = f.timestamp) :
    processSensorData s (some f) = ⟨s, [.getLatestSensorFrame], none⟩ := by
  simp [processSensorData, h, hg, ht]

theorem processSensorData_requires_failed (s : AppMain) (g : MediaFrameSourceGroup)
    (f : SensorFrame) (h : s.photoVideoMediaFrameSourceGroupStarted = true)
    (hg : s.photoVideoMediaFrameSourceGroup = some g)
    (ht : s.cameraPreviewTimestamp ≠ f.timestamp) (hf : f.bitmapPixelFormat ≠ .Bgra8) :
    processSensorData s (some f) =
      ⟨{ s with
          cameraPreviewTimestamp := f.timestamp
          cameraPreviewTexture := some (stagingTextureFor s f) },
        .getLatestSensorFrame :: stagingTextureCalls s f ++ [.mapCPUTexture],
        some .requiresFailed⟩ := by
  simp [processSensorData, h, hg, ht, hf]

theorem processSensorData_assert_failed (s : AppMain) (g : MediaFrameSourceGroup)
    (f : SensorFrame) (h : s.photoVideoMediaFrameSourceGroupStarted = true)
    (hg : s.photoVideoMediaFrameSourceGroup = some g)
    (ht : s.cameraPreviewTimestamp ≠ f.timestamp) (hf : f.bitmapPixelFormat = .Bgra8)
    (hl : toUInt32 (bytesToCopy (stagingTextureFor s f)) ≠ f.pixelBuffer.length) :
    processSensorData s (some f) =
      ⟨{ s with
          cameraPreviewTimestamp := f.timestamp
          cameraPreviewTexture := some (stagingTextureFor s f) },
        .getLatestSensorFrame :: stagingTextureCalls s f ++ [.mapCPUTexture] ++ [.lockBuffer],
        some .assertFailed⟩ := by
  simp [processSensorData, h, hg, ht, hf, hl]

theorem processSensorData_copied (s : AppMain) (g : MediaFrameSourceGroup)
    (f : SensorFrame) (h : s.photoVideoMediaFrameSourceGroupStarted = true)
    (hg : s.photoVideoMediaFrameSourceGroup = some g)
    (ht : s.cameraPreviewTimestamp ≠ f.timestamp) (hf : f.bitmapPixelFormat = .Bgra8)
    (hl : toUInt32 (bytesToCopy (stagingTextureFor s f)) = f.pixelBuffer.length) :
    processSensorData s (some f) =
      ⟨{ s with
          cameraPreviewTimestamp := f.timestamp
          cameraPreviewTexture := some
            { stagingTextureFor s f with cpuTexture := f.pixelBuffer, gpuTexture := f.pixelBuffer } },
        .getLatestSensorFrame :: stagingTextureCalls s f ++ [.mapCPUTexture] ++
          [.lockBuffer, .memcpy_s f.timestamp f.pixelBuffer.length, .unmapCPUTexture, .copyCPU2GPU],
        none⟩ := by
  have hm := memcpy_s_after_assert _ f.pixelBuffer hl
  simp only [bytesToCopy] at hl hm
  simp [processSensorData, h, hg, ht, hf, hl, hm, bytesToCopy]

/-- Case analysis on frame ingestion: the seven ways through lines 128-194. -/
theorem processSensorData_cases (s : AppMain) (latest : Option SensorFrame) (P : Outcome → Prop)
    (notStarted : s.photoVideoMediaFrameSourceGroupStarted = false → P ⟨s, [], none⟩)
    (nullGroup : s.photoVideoMediaFrameSourceGroupStarted = true →
      s.photoVideoMediaFrameSourceGroup = none → P ⟨s, [], some .nullMediaFrameSourceGroup⟩)
    (noFrame : s.photoVideoMediaFrameSourceGroupStarted = true →
      s.photoVideoMediaFrameSourceGroup ≠ none → latest = none →
      P ⟨s, [.getLatestSensorFrame], none⟩)
    (sameTimestamp : ∀ f, s.photoVideoMediaFrameSourceGroupStarted = true →
      s.photoVideoMediaFrameSourceGroup ≠ none → latest = some f →
      s.cameraPreviewTimestamp = f.timestamp → P ⟨s, [.getLatestSensorFrame], none⟩)
    (requiresFailed : ∀ f, s.photoVideoMediaFrameSourceGroupStarted = true →
      s.photoVideoMediaFrameSourceGroup ≠ none → latest = some f →
      s.cameraPreviewTimestamp ≠ f.timestamp → f.bitmapPixelFormat ≠ .Bgra8 →
      P ⟨{ s with
            cameraPreviewTimestamp := f.timestamp
            cameraPreviewTexture := some (stagingTextureFor s f) },
          .getLatestSensorFrame :: stagingTextureCalls s f ++ [.mapCPUTexture],
          some .requiresFailed⟩)
    (assertFailed : ∀ f, s.photoVideoMediaFrameSourceGroupStarted = true →
      s.photoVideoMediaFrameSourceGroup ≠ none → latest = some f →
      s.cameraPreviewTimestamp ≠ f.timestamp → f.bitmapPixelFormat = .Bgra8 →
      toUInt32 (bytesToCopy (stagingTextureFor s f)) ≠ f.pixelBuffer.length →
      P ⟨{ s with
            cameraPreviewTimestamp := f.timestamp
            cameraPreviewTexture := some (stagingTextureFor s f) },
          .getLatestSensorFrame :: stagingTextureCalls s f ++ [.mapCPUTexture] ++ [.lockBuffer],
          some .assertFailed⟩)
    (copied : ∀ f, s.photoVideoMediaFrameSourceGroupStarted = true →
      s.photoVideoMediaFrameSourceGroup ≠ none → latest = some f →
      s.cameraPreviewTimestamp ≠ f.timestamp → f.bitmapPixelFormat = .Bgra8 →
      toUInt32 (bytesToCopy (stagingTextureFor s f)) = f.pixelBuffer.length →
      P ⟨{ s with
            cameraPreviewTimestamp := f.timestamp
            cameraPreviewTexture := some
              { stagingTextureFor s f with
                cpuTexture := f.pixelBuffer, gpuTexture := f.pixelBuffer } },
          .getLatestSensorFrame :: stagingTextureCalls s f ++ [.mapCPUTexture] ++
            [.lockBuffer, .memcpy_s f.timestamp f.pixelBuffer.length, .unmapCPUTexture,
              .copyCPU2GPU],
          none⟩) :
    P (processSensorData s latest) := by
  cases h : s.photoVideoMediaFrameSourceGroupStarted with
  | false => rw [processSensorData_not_started s latest h]; exact notStarted h
  | true =>
    cases hg : s.photoVideoMediaFrameSourceGroup with
    | none => rw [processSensorData_null_group s latest h hg]; exact nullGroup h hg
    | some g =>
      have hg2 : s.photoVideoMediaFrameSourceGroup ≠ none := by simp [hg]
      cases latest with
      | none => rw [processSensorData_no_frame s g h hg]; exact noFrame h hg2 rfl
      | some f =>
        by_cases ht : s.cameraPreviewTimestamp = f.timestamp
        · rw [processSensorData_same_timestamp s g f h hg ht]; exact sameTimestamp f h hg2 rfl ht
        · by_cases hf : f.bitmapPixelFormat = .Bgra8
          · by_cases hl : toUInt32 (bytesToCopy (stagingTextureFor s f)) = f.pixelBuffer.length
            · rw [processSensorData_copied s g f h hg ht hf hl]; exact copied f h hg2 rfl ht hf hl
            · rw [processSensorData_assert_failed s g f h hg ht hf hl]
              exact assertFailed f h hg2 rfl ht hf hl
          · rw [processSensorData_requires_failed s g f h hg ht hf]
            exact requiresFailed f h hg2 rfl ht hf

theorem copiesOf_append (T : Int) (a b : List Call) :
    copiesOf T (a ++ b) = copiesOf T a + copiesOf T b := by
  simp [copiesOf, List.countP_append]

theorem copiesOf_stagingTextureCalls (T : Int) (s : AppMain) (f : SensorFrame) :
    copiesOf T (stagingTextureCalls s f) = 0 := by
  unfold stagingTextureCalls copiesOf
  split <;> simp [isCopyOf]

theorem processSensorData_copies (T : Int) (s : AppMain) (latest : Option SensorFrame) :
    copiesOf T (processSensorData s latest).log ≤ 1 ∧
    (copiesOf T (processSensorData s latest).log = 1 →
      (processSensorData s latest).state.cameraPreviewTimestamp = T ∧
        s.cameraPreviewTimestamp ≠ T) ∧
    ((processSensorData s latest).state.cameraPreviewTimestamp = s.cameraPreviewTimestamp ∨
      ∃ f, latest = some f ∧
        (processSensorData s latest).state.cameraPreviewTimestamp = f.timestamp) := by
  refine processSensorData_cases s latest
    (fun o => copiesOf T o.log ≤ 1 ∧
      (copiesOf T o.log = 1 → o.state.cameraPreviewTimestamp = T ∧ s.cameraPreviewTimestamp ≠ T) ∧
      (o.state.cameraPreviewTimestamp = s.cameraPreviewTimestamp ∨
        ∃ f, latest = some f ∧ o.state.cameraPreviewTimestamp = f.timestamp))
    ?_ ?_ ?_ ?_ ?_ ?_ ?_
  · intro _; simp [copiesOf]
  · intro _ _; simp [copiesOf]
  · intro _ _ _; simp [copiesOf, isCopyOf]
  · intro f _ _ _ _; simp [copiesOf, isCopyOf]
  · intro f _ _ hl _ _
    have h0 := copiesOf_stagingTextureCalls T s f
    simp only [copiesOf] at h0
    simp [copiesOf, isCopyOf, List.countP_cons, List.countP_append, h0, hl]
  · intro f _ _ hl _ _ _
    have h0 := copiesOf_stagingTextureCalls T s f
    simp only [copiesOf] at h0
    simp [copiesOf, isCopyOf, List.countP_cons, List.countP_append, h0, hl]
  · intro f _ _ hl ht _ _
    have h0 := copiesOf_stagingTextureCalls T s f
    simp only [copiesOf] at h0
    simp only [copiesOf, List.countP_cons, List.countP_append, h0, isCopyOf, List.countP_nil]
    by_cases hT : f.timestamp = T
    · subst hT; simp [hl, ht]
    · simp [hT, hl]

/-! ## The frame cursor and the staging texture along a run -/

theorem checkVoiceCommands_recorder_fields (s : AppMain) :
    ∃ p b, (checkVoiceCommands s).state =
      { s with pendingRecorderStarts := p, sensorFrameRecorderStarted := b } := by
  unfold checkVoiceCommands
  repeat' split
  all_goals exact ⟨_, _, rfl⟩

theorem checkVoiceCommands_copiesOf (T : Int) (s : AppMain) :
    copiesOf T (checkVoiceCommands s).log = 0 := by
  unfold checkVoiceCommands copiesOf
  repeat' split
  all_goals simp [isCopyOf]

theorem OnUpdate_copies (T : Int) (s : AppMain) (latest : Option SensorFrame) :
    copiesOf T (OnUpdate s latest).log ≤ 1 ∧
    (copiesOf T (OnUpdate s latest).log = 1 →
      (OnUpdate s latest).state.cameraPreviewTimestamp = T ∧ s.cameraPreviewTimestamp ≠ T) ∧
    ((OnUpdate s latest).state.cameraPreviewTimestamp = s.cameraPreviewTimestamp ∨
      ∃ f, latest = some f ∧ (OnUpdate s latest).state.cameraPreviewTimestamp = f.timestamp) := by
  obtain ⟨p, b, hcv⟩ := checkVoiceCommands_recorder_fields s
  have hlog := checkVoiceCommands_copiesOf T s
  cases h : (checkVoiceCommands s).fault with
  | some e =>
    rw [OnUpdate_of_fault s latest e h]
    have : copiesOf T (Call.slateUpdate :: (checkVoiceCommands s).log) = 0 := by
      simpa [copiesOf, isCopyOf, List.countP_cons] using hlog
    simp [this, hcv]
  | none =>
    rw [OnUpdate_of_ok s latest h]
    have hpsd := processSensorData_copies T
      { (checkVoiceCommands s).state with lastVoiceCommand := none } latest
    have hc : ({ (checkVoiceCommands s).state with lastVoiceCommand := none } :
        AppMain).cameraPreviewTimestamp = s.cameraPreviewTimestamp := by
      simp [hcv]
    rw [hc] at hpsd
    have hsum : copiesOf T (Call.slateUpdate :: (checkVoiceCommands s).log ++
        (processSensorData { (checkVoiceCommands s).state with lastVoiceCommand := none }
          latest).log) =
        copiesOf T (processSensorData { (checkVoiceCommands s).state with lastVoiceCommand := none }
          latest).log := by
      rw [copiesOf_append]
      have : copiesOf T (Call.slateUpdate :: (checkVoiceCommands s).log) = 0 := by
        simpa [copiesOf, isCopyOf, List.countP_cons] using hlog
      omega
    simp only [hsum]
    exact hpsd

theorem StartHoloLensMediaFrameSourceGroup_frame (T : Int) (s : AppMain) :
    (StartHoloLensMediaFrameSourceGroup s).state.cameraPreviewTimestamp = s.cameraPreviewTimestamp ∧
    (StartHoloLensMediaFrameSourceGroup s).state.cameraPreviewTexture = s.cameraPreviewTexture ∧
    copiesOf T (StartHoloLensMediaFrameSourceGroup s).log = 0 := by
  unfold StartHoloLensMediaFrameSourceGroup
  split <;> simp [copiesOf, isCopyOf]

/-! ## The speech chain touches only the recognizer -/

theorem StopCurrentRecognizerIfExists_fields (env : SpeechEnv) (s : AppMain) :
    (∃ r, (StopCurrentRecognizerIfExists env s).state = { s with speechRecognizer := r }) ∧
    List.Sublist (StopCurrentRecognizerIfExists env s).log [.stopRecognitionAsync] := by
  unfold StopCurrentRecognizerIfExists
  repeat' split
  all_goals exact ⟨⟨_, rfl⟩, by simp⟩

theorem InitializeSpeechRecognizer_fields (env : SpeechEnv) (s : AppMain) :
    (∃ r, (InitializeSpeechRecognizer env s).state = { s with speechRecognizer := r }) ∧
    (InitializeSpeechRecognizer env s).log = [.recognizerNew] := by
  unfold InitializeSpeechRecognizer
  split
  all_goals exact ⟨⟨_, rfl⟩, rfl⟩

theorem compileAndListen_fields (env : SpeechEnv) (s : AppMain) :
    (∃ r, (compileAndListen env s).state = { s with speechRecognizer := r }) ∧
    List.Sublist (compileAndListen env s).log [.compileConstraintsAsync, .sessionStartAsync] := by
  unfold compileAndListen startContinuousSession
  dsimp only
  repeat' split
  all_goals exact ⟨⟨_, rfl⟩, by simp⟩

theorem StartRecognizeSpeechCommands_fields (env : SpeechEnv) (s : AppMain) :
    (∃ r, (StartRecognizeSpeechCommands env s).state = { s with speechRecognizer := r }) ∧
    List.Sublist (StartRecognizeSpeechCommands env s).log
      [.stopRecognitionAsync, .recognizerNew, .compileConstraintsAsync, .sessionStartAsync] := by
  unfold StartRecognizeSpeechCommands
  dsimp only
  have A := StopCurrentRecognizerIfExists_fields env s
  generalize StopCurrentRecognizerIfExists env s = o1 at A ⊢
  obtain ⟨⟨r1, h1⟩, l1⟩ := A
  have B := InitializeSpeechRecognizer_fields env o1.state
  generalize InitializeSpeechRecognizer env o1.state = o2 at B ⊢
  obtain ⟨⟨r2, h2⟩, l2⟩ := B
  rw [h1] at h2
  have C := compileAndListen_fields env (setConstraints o2.state)
  generalize compileAndListen env (setConstraints o2.state) = o3 at C ⊢
  obtain ⟨⟨r3, h3⟩, l3⟩ := C
  simp only [setConstraints, h2] at h3
  split
  · exact ⟨⟨r1, h1⟩, l1.trans (by simp)⟩
  · split
    · refine ⟨⟨r2, h2⟩, ?_⟩
      rw [l2]
      exact (List.Sublist.append l1 (List.Sublist.refl _)).trans (by simp)
    · refine ⟨⟨r3, h3⟩, ?_⟩
      rw [l2]
      exact List.Sublist.append (List.Sublist.append l1 (List.Sublist.refl _)) l3

theorem copiesOf_of_sublist (T : Int) (a b : List Call) (h : List.Sublist a b) (hb : copiesOf T b = 0) :
    copiesOf T a = 0 := by
  have := h.countP_le (isCopyOf T)
  simp only [copiesOf] at hb ⊢
  omega

theorem StartRecognizeSpeechCommands_frame (T : Int) (env : SpeechEnv) (s : AppMain) :
    (StartRecognizeSpeechCommands env s).state.cameraPreviewTimestamp = s.cameraPreviewTimestamp ∧
    (StartRecognizeSpeechCommands env s).state.cameraPreviewTexture = s.cameraPreviewTexture ∧
    copiesOf T (StartRecognizeSpeechCommands env s).log = 0 := by
  obtain ⟨⟨r, h⟩, hl⟩ := StartRecognizeSpeechCommands_fields env s
  refine ⟨by rw [h], by rw [h], copiesOf_of_sublist T _ _ hl ?_⟩
  simp [copiesOf, isCopyOf]

theorem OnHolographicSpaceChanged_frame (T : Int) (env : SpeechEnv) (s : AppMain) :
    (OnHolographicSpaceChanged env s).state.cameraPreviewTimestamp = s.cameraPreviewTimestamp ∧
    (OnHolographicSpaceChanged env s).state.cameraPreviewTexture = s.cameraPreviewTexture ∧
    copiesOf T (OnHolographicSpaceChanged env s).log = 0 := by
  obtain ⟨a1, a2, a3⟩ := StartHoloLensMediaFrameSourceGroup_frame T s
  obtain ⟨b1, b2, b3⟩ := StartRecognizeSpeechCommands_frame T env
    (StartHoloLensMediaFrameSourceGroup s).state
  unfold OnHolographicSpaceChanged
  dsimp only
  split
  · refine ⟨a1, a2, ?_⟩
    simpa [copiesOf, isCopyOf, List.countP_cons] using a3
  · refine ⟨b1.trans a1, b2.trans a2, ?_⟩
    simp only [copiesOf, List.countP_cons, List.countP_append, isCopyOf, List.countP_nil] at a3 b3 ⊢
    simp [a3, b3]

theorem OnDeviceRestored_frame (T : Int) (s : AppMain) :
    (OnDeviceRestored s).state.cameraPreviewTimestamp = s.cameraPreviewTimestamp ∧
    (OnDeviceRestored s).state.cameraPreviewTexture = s.cameraPreviewTexture ∧
    copiesOf T (OnDeviceRestored s).log = 0 := by
  obtain ⟨a1, a2, a3⟩ := StartHoloLensMediaFrameSourceGroup_frame T s
  refine ⟨a1, a2, ?_⟩
  simpa [OnDeviceRestored, copiesOf, isCopyOf, List.countP_cons] using a3

/-- An event that is neither a tick nor a device loss leaves the frame cursor
and the staging texture alone and copies nothing. -/
theorem step_frame_other (T : Int) (s : AppMain) (e : Event) (hl : e ≠ .deviceLost)
    (hu : ∀ latest, e ≠ .update latest) :
    (step s e).state.cameraPreviewTimestamp = s.cameraPreviewTimestamp ∧
    (step s e).state.cameraPreviewTexture = s.cameraPreviewTexture ∧
    copiesOf T (step s e).log = 0 := by
  cases e with
  | holographicSpaceChanged env => exact OnHolographicSpaceChanged_frame T env s
  | resultGenerated r =>
    simp only [step, OnResultGenerated]
    split <;> simp [copiesOf, isCopyOf]
  | update latest => exact absurd rfl (hu latest)
  | recorderStartCompleted =>
    simp only [step, recorderStartCompleted]
    split <;> simp [copiesOf]
  | groupStartCompleted =>
    simp only [step, groupStartCompleted]
    split <;> simp [copiesOf]
  | deviceLost => exact absurd rfl hl
  | deviceRestored => exact OnDeviceRestored_frame T s

theorem returnedTimestamps_other (e : Event) (es : List Event)
    (hu : ∀ f, e ≠ .update (some f)) : returnedTimestamps (e :: es) = returnedTimestamps es := by
  cases e with
  | update latest =>
    cases latest with
    | none => rfl
    | some f => exact absurd rfl (hu f)
  | _ => rfl

/-- What one event other than a device loss does to the cursor and how many
copies of timestamp `T` it makes. -/
theorem step_copies (T : Int) (s : AppMain) (e : Event) (hl : e ≠ .deviceLost) :
    copiesOf T (step s e).log ≤ 1 ∧
    (copiesOf T (step s e).log = 1 →
      (step s e).state.cameraPreviewTimestamp = T ∧ s.cameraPreviewTimestamp ≠ T) ∧
    ((step s e).state.cameraPreviewTimestamp = s.cameraPreviewTimestamp ∨
      ∃ f, e = .update (some f) ∧ (step s e).state.cameraPreviewTimestamp = f.timestamp) := by
  by_cases hu : ∃ latest, e = .update latest
  · obtain ⟨latest, rfl⟩ := hu
    obtain ⟨a, b, c⟩ := OnUpdate_copies T s latest
    refine ⟨a, b, ?_⟩
    rcases c with c | ⟨f, hf, c⟩
    · exact Or.inl c
    · exact Or.inr ⟨f, by rw [hf], c⟩
  · have hu2 : ∀ latest, e ≠ .update latest := fun latest h => hu ⟨latest, h⟩
    obtain ⟨a, _, c⟩ := step_frame_other T s e hl hu2
    exact ⟨by omega, fun h => by omega, Or.inl a⟩

/-- With timestamps that never decrease and never fall below the cursor, a
timestamp at or below the cursor is never copied, and any other at most once. -/
theorem copies_from_cursor (T : Int) (es : List Event) :
    ∀ s : AppMain, Event.deviceLost ∉ es →
      (∀ t ∈ returnedTimestamps es, s.cameraPreviewTimestamp ≤ t) →
      (returnedTimestamps es).Pairwise (· ≤ ·) →
      copiesOf T (run s es).log ≤ (if T ≤ s.cameraPreviewTimestamp then 0 else 1) := by
  induction es with
  | nil => intro s _ _ _; simp [run, copiesOf]
  | cons e es ih =>
    intro s hl hge hp
    have hle : e ≠ .deviceLost := fun h => hl (by simp [h])
    have hl2 : Event.deviceLost ∉ es := fun h => hl (by simp [h])
    obtain ⟨c1, c2, c3⟩ := step_copies T s e hle
    have hstep : copiesOf T (step s e).log ≤ (if T ≤ s.cameraPreviewTimestamp then 0 else 1) ∧
        s.cameraPreviewTimestamp ≤ (step s e).state.cameraPreviewTimestamp ∧
        (copiesOf T (step s e).log = 1 → (step s e).state.cameraPreviewTimestamp = T) ∧
        (∀ t ∈ returnedTimestamps es, (step s e).state.cameraPreviewTimestamp ≤ t) ∧
        (returnedTimestamps es).Pairwise (· ≤ ·) := by
      rcases c3 with c3 | ⟨f, rfl, c3⟩
      · have hsub : ∀ t ∈ returnedTimestamps es, t ∈ returnedTimestamps (e :: es) := by
          intro t ht
          by_cases hu : ∃ f, e = .update (some f)
          · obtain ⟨f, rfl⟩ := hu
            simp [returnedTimestamps, ht]
          · rw [returnedTimestamps_other e es (fun f h => hu ⟨f, h⟩)]; exact ht
        have hp2 : (returnedTimestamps es).Pairwise (· ≤ ·) := by
          by_cases hu : ∃ f, e = .update (some f)
          · obtain ⟨f, rfl⟩ := hu
            exact (List.pairwise_cons.mp hp).2
          · rw [returnedTimestamps_other e es (fun f h => hu ⟨f, h⟩)] at hp; exact hp
        refine ⟨?_, by omega, fun h => (c2 h).1, fun t ht => ?_, hp2⟩
        · split
          · rename_i hT
            by_contra hne
            have h1 : copiesOf T (step s e).log = 1 := by omega
            have := c2 h1
            omega
          · exact c1
        · rw [c3]; exact hge t (hsub t ht)
      · have hge2 : s.cameraPreviewTimestamp ≤ f.timestamp := hge _ (by simp [returnedTimestamps])
        have hp2 := List.pairwise_cons.mp hp
        refine ⟨?_, by rw [c3]; exact hge2, fun h => (c2 h).1, fun t ht => ?_, hp2.2⟩
        · split
          · rename_i hT
            by_contra hne
            have h1 : copiesOf T (step s (.update (some f))).log = 1 := by omega
            have := c2 h1
            omega
          · exact c1
        · rw [c3]; exact hp2.1 t ht
    obtain ⟨d1, d2, d3, d4, d5⟩ := hstep
    cases hf : (step s e).fault with
    | some fl => rw [run_cons_fault s e es fl hf]; exact d1
    | none =>
      rw [run_cons_ok s e es hf]
      simp only [copiesOf_append]
      have hrest := ih (step s e).state hl2 d4 d5
      by_cases h1 : copiesOf T (step s e).log = 1
      · have hT := d3 h1
        rw [hT] at hrest
        simp only [le_refl, if_true] at hrest
        by_cases hc : T ≤ s.cameraPreviewTimestamp
        · simp only [hc, if_true] at d1; omega
        · simp only [hc, if_false]; omega
      · have h0 : copiesOf T (step s e).log = 0 := by omega
        rw [h0]
        split
        · rename_i hT
          have : T ≤ (step s e).state.cameraPreviewTimestamp := le_trans hT d2
          simp only [this, if_true] at hrest
          omega
        · split at hrest <;> omega

/-! ## `OnUpdate` in terms of frame ingestion at the state before the tick -/

/-- Frame ingestion does not read the command slot or the recorder's flag and
pending starts, and hands them on unchanged. -/
theorem processSensorData_with (s : AppMain) (latest : Option SensorFrame)
    (a : Option String) (p : Nat) (b : Bool) :
    processSensorData
        { s with lastVoiceCommand := a, pendingRecorderStarts := p, sensorFrameRecorderStarted := b }
        latest =
      ⟨{ (processSensorData s latest).state with
          lastVoiceCommand := a, pendingRecorderStarts := p, sensorFrameRecorderStarted := b },
        (processSensorData s latest).log, (processSensorData s latest).fault⟩ := by
  refine processSensorData_cases s latest
    (fun o => processSensorData
        { s with lastVoiceCommand := a, pendingRecorderStarts := p, sensorFrameRecorderStarted := b }
        latest =
      ⟨{ o.state with
          lastVoiceCommand := a, pendingRecorderStarts := p, sensorFrameRecorderStarted := b },
        o.log, o.fault⟩) ?_ ?_ ?_ ?_ ?_ ?_ ?_
  · intro h
    exact processSensorData_not_started _ latest h
  · intro h hg
    exact processSensorData_null_group _ latest h hg
  · intro h hg hl
    obtain ⟨g, hg2⟩ := Option.ne_none_iff_exists'.mp hg
    subst hl
    exact processSensorData_no_frame _ g h hg2
  · intro f h hg hl ht
    obtain ⟨g, hg2⟩ := Option.ne_none_iff_exists'.mp hg
    subst hl
    exact processSensorData_same_timestamp _ g f h hg2 ht
  · intro f h hg hl ht hf
    obtain ⟨g, hg2⟩ := Option.ne_none_iff_exists'.mp hg
    subst hl
    exact processSensorData_requires_failed _ g f h hg2 ht hf
  · intro f h hg hl ht hf hlen
    obtain ⟨g, hg2⟩ := Option.ne_none_iff_exists'.mp hg
    subst hl
    exact processSensorData_assert_failed _ g f h hg2 ht hf hlen
  · intro f h hg hl ht hf hlen
    obtain ⟨g, hg2⟩ := Option.ne_none_iff_exists'.mp hg
    subst hl
    exact processSensorData_copied _ g f h hg2 ht hf hlen

/-- A tick that gets past the command check: the state, log and fault of
`OnUpdate` from frame ingestion at the state before the tick. -/
theorem OnUpdate_normal (s : AppMain) (latest : Option SensorFrame)
    (h : (checkVoiceCommands s).fault = none) :
    OnUpdate s latest =
      ⟨{ (processSensorData s latest).state with
          lastVoiceCommand := none
          pendingRecorderStarts := (checkVoiceCommands s).state.pendingRecorderStarts
          sensorFrameRecorderStarted := (checkVoiceCommands s).state.sensorFrameRecorderStarted },
        .slateUpdate :: (checkVoiceCommands s).log ++ (processSensorData s latest).log,
        (processSensorData s latest).fault⟩ := by
  rw [OnUpdate_of_ok s latest h]
  obtain ⟨p, b, hcv⟩ := checkVoiceCommands_recorder_fields s
  have hw := processSensorData_with s latest none p b
  rw [hcv]
  simp only at hw ⊢
  rw [hw]

/-! ## What a tick can change -/

theorem OnUpdate_fields (s : AppMain) (latest : Option SensorFrame) :
    ∃ a p b ts tex, (OnUpdate s latest).state =
      { s with
        lastVoiceCommand := a, pendingRecorderStarts := p, sensorFrameRecorderStarted := b
        cameraPreviewTimestamp := ts, cameraPreviewTexture := tex } := by
  obtain ⟨p, b, hcv⟩ := checkVoiceCommands_recorder_fields s
  cases h : (checkVoiceCommands s).fault with
  | some e =>
    rw [OnUpdate_of_fault s latest e h]
    exact ⟨s.lastVoiceCommand, p, b, s.cameraPreviewTimestamp, s.cameraPreviewTexture, by rw [hcv]⟩
  | none =>
    rw [OnUpdate_normal s latest h]
    obtain ⟨ts, tex, hp⟩ := processSensorData_frame_fields s latest
    exact ⟨none, _, _, ts, tex, by rw [hp]⟩

/-- The handles are created together: along a run, a frame source group
without a recorder does not appear. -/
theorem step_handles (s : AppMain) (e : Event)
    (h : s.photoVideoMediaFrameSourceGroup ≠ none → s.sensorFrameRecorder ≠ none) :
    (step s e).state.photoVideoMediaFrameSourceGroup ≠ none →
      (step s e).state.sensorFrameRecorder ≠ none := by
  cases e with
  | holographicSpaceChanged env =>
    simp only [step, OnHolographicSpaceChanged]
    obtain ⟨⟨r, hr⟩, _⟩ := StartRecognizeSpeechCommands_fields env
      (StartHoloLensMediaFrameSourceGroup s).state
    split
    · unfold StartHoloLensMediaFrameSourceGroup
      split <;> simp_all
    · simp only [hr]
      unfold StartHoloLensMediaFrameSourceGroup
      split <;> simp_all
  | resultGenerated r =>
    simp only [step, OnResultGenerated]
    split <;> simpa using h
  | update latest =>
    obtain ⟨a, p, b, ts, tex, hu⟩ := OnUpdate_fields s latest
    simp only [step, hu]
    exact h
  | recorderStartCompleted =>
    simp only [step, recorderStartCompleted]
    split <;> simpa using h
  | groupStartCompleted =>
    simp only [step, groupStartCompleted]
    split <;> simpa using h
  | deviceLost => simp [step, OnDeviceLost]
  | deviceRestored =>
    simp only [step, OnDeviceRestored]
    unfold StartHoloLensMediaFrameSourceGroup
    split <;> simp_all

theorem run_handles (es : List Event) :
    ∀ s : AppMain, (s.photoVideoMediaFrameSourceGroup ≠ none → s.sensorFrameRecorder ≠ none) →
      (run s es).state.photoVideoMediaFrameSourceGroup ≠ none →
        (run s es).state.sensorFrameRecorder ≠ none := by
  induction es with
  | nil => intro s h; simpa [run] using h
  | cons e es ih =>
    intro s h
    cases hf : (step s e).fault with
    | some fl => rw [run_cons_fault s e es fl hf]; exact step_handles s e h
    | none => rw [run_cons_ok s e es hf]; exact ih _ (step_handles s e h)

/-- A tick that does not get past the early returns leaves the cursor and the
staging texture alone, copies nothing and uploads nothing. -/
theorem OnUpdate_not_ingesting (s : AppMain) (latest : Option SensorFrame)
    (h : ingests s latest = false) :
    (OnUpdate s latest).state.cameraPreviewTimestamp = s.cameraPreviewTimestamp ∧
    (OnUpdate s latest).state.cameraPreviewTexture = s.cameraPreviewTexture ∧
    (∀ c ∈ (OnUpdate s latest).log, isCopy c = false) ∧
    Call.copyCPU2GPU ∉ (OnUpdate s latest).log := by
  have hlogcv : (∀ c ∈ (checkVoiceCommands s).log, isCopy c = false) ∧
      Call.copyCPU2GPU ∉ (checkVoiceCommands s).log := by
    unfold checkVoiceCommands
    repeat' split
    all_goals simp [isCopy]
  obtain ⟨p, b, hcv⟩ := checkVoiceCommands_recorder_fields s
  cases hfault : (checkVoiceCommands s).fault with
  | some e =>
    rw [OnUpdate_of_fault s latest e hfault]
    refine ⟨by rw [hcv], by rw [hcv], ?_, ?_⟩
    · intro c hc
      rcases List.mem_cons.mp hc with rfl | hc
      · rfl
      · exact hlogcv.1 c hc
    · intro hc
      rcases List.mem_cons.mp hc with hc | hc
      · cases hc
      · exact hlogcv.2 hc
  | none =>
    rw [OnUpdate_normal s latest hfault]
    have hpsd : (processSensorData s latest).state = s ∧
        (processSensorData s latest).log ⊆ [.getLatestSensorFrame] := by
      refine processSensorData_cases s latest
        (fun o => o.state = s ∧ o.log ⊆ [.getLatestSensorFrame]) ?_ ?_ ?_ ?_ ?_ ?_ ?_
      · intro _; simp
      · intro _ _; simp
      · intro _ _ _; simp
      · intro f _ _ _ _; simp
      · intro f hs _ hl ht _
        subst hl
        simp [ingests, hs, ht] at h
      · intro f hs _ hl ht _ _
        subst hl
        simp [ingests, hs, ht] at h
      · intro f hs _ hl ht _ _
        subst hl
        simp [ingests, hs, ht] at h
    obtain ⟨hst, hlog⟩ := hpsd
    refine ⟨by simp [hst], by simp [hst], ?_, ?_⟩
    · intro c hc
      simp only [List.cons_append, List.mem_cons, List.mem_append] at hc
      rcases hc with rfl | hc | hc
      · rfl
      · exact hlogcv.1 c hc
      · have := hlog hc
        simp only [List.mem_singleton] at this
        subst this; rfl
    · intro hc
      simp only [List.cons_append, List.mem_cons, List.mem_append] at hc
      rcases hc with hc | hc | hc
      · cases hc
      · exact hlogcv.2 hc
      · have := hlog hc
        simp at this

/-! ## C2: deduplication by timestamp -/

/-- C2, as stated, fails: with no device loss, when the source returns the
timestamps 100, 200, 100 on three ticks, the frame with timestamp 100 is
copied into the staging texture twice (the cursor only remembers the last
timestamp consumed). -/
theorem C2_timestamp_copied_twice :
    Event.deviceLost ∉ [Event.groupStartCompleted, .update (some (pixel 100)),
      .update (some (pixel 200)), .update (some (pixel 100))] ∧
    (run spaceReady [.groupStartCompleted, .update (some (pixel 100)),
      .update (some (pixel 200)), .update (some (pixel 100))]).fault = none ∧
    copiesOf 100 (run spaceReady [.groupStartCompleted, .update (some (pixel 100)),
      .update (some (pixel 200)), .update (some (pixel 100))]).log = 2 := by
  decide

/-- C2 (amended): in every run without a device loss in which the timestamps
the frame source returns never decrease from one tick to a later one, a frame
with timestamp `T` is copied into the staging texture at most once. -/
theorem C2_copied_at_most_once_when_monotone (T : Int) (es : List Event) (s : AppMain)
    (hl : Event.deviceLost ∉ es) (hp : (returnedTimestamps es).Pairwise (· ≤ ·)) :
    copiesOf T (run s es).log ≤ 1 := by
  induction es generalizing s with
  | nil => simp [run, copiesOf]
  | cons e es ih =>
    have hle : e ≠ .deviceLost := fun h => hl (by simp [h])
    have hl2 : Event.deviceLost ∉ es := fun h => hl (by simp [h])
    obtain ⟨c1, c2, c3⟩ := step_copies T s e hle
    cases hf : (step s e).fault with
    | some fl => rw [run_cons_fault s e es fl hf]; exact c1
    | none =>
      rw [run_cons_ok s e es hf]
      simp only [copiesOf_append]
      by_cases h1 : copiesOf T (step s e).log = 1
      · obtain ⟨hT, hne⟩ := c2 h1
        rcases c3 with c3 | ⟨f, rfl, c3⟩
        · exact absurd (c3.symm.trans hT) hne
        · have hp2 := List.pairwise_cons.mp hp
          have hrest := copies_from_cursor T es (step s (.update (some f))).state hl2
            (fun t ht => by rw [c3]; exact hp2.1 t ht) hp2.2
          rw [hT] at hrest
          simp only [le_refl, if_true] at hrest
          omega
      · have hp2 : (returnedTimestamps es).Pairwise (· ≤ ·) := by
          by_cases hu : ∃ f, e = .update (some f)
          · obtain ⟨f, rfl⟩ := hu
            exact (List.pairwise_cons.mp hp).2
          · rw [returnedTimestamps_other e es (fun f h => hu ⟨f, h⟩)] at hp; exact hp
        have hrest := ih (step s e).state hl2 hp2
        omega

/-- C2 witness: the amended claim on a run that returns the timestamps 100,
100, 200. -/
theorem C2_copied_at_most_once_when_monotone_witness :
    copiesOf 100 (run spaceReady [.groupStartCompleted, .update (some (pixel 100)),
      .update (some (pixel 100)), .update (some (pixel 200))]).log ≤ 1 :=
  C2_copied_at_most_once_when_monotone 100
    [.groupStartCompleted, .update (some (pixel 100)), .update (some (pixel 100)),
      .update (some (pixel 200))] spaceReady (by decide) (by decide)

/-! ## C3: the cursor after a device loss -/

theorem checkVoiceCommands_fault_none (s : AppMain) (h : s.sensorFrameRecorder ≠ none) :
    (checkVoiceCommands s).fault = none := by
  unfold checkVoiceCommands
  repeat' split
  all_goals simp_all

/-- While every frame the source returns carries the timestamp 0, a cursor at
0 and an empty staging texture stay as they are. -/
theorem run_cursor_zero (es : List Event) :
    ∀ s : AppMain, s.cameraPreviewTimestamp = 0 → s.cameraPreviewTexture = none →
      (∀ g, Event.update (some g) ∈ es → g.timestamp = 0) →
      (run s es).state.cameraPreviewTimestamp = 0 ∧ (run s es).state.cameraPreviewTexture = none := by
  induction es with
  | nil => intro s h0 ht _; exact ⟨by simpa [run] using h0, by simpa [run] using ht⟩
  | cons e es ih =>
    intro s h0 ht hq
    have hstep : (step s e).state.cameraPreviewTimestamp = 0 ∧
        (step s e).state.cameraPreviewTexture = none := by
      by_cases hl : e = .deviceLost
      · subst hl; simp [step, OnDeviceLost]
      · by_cases hu : ∃ latest, e = .update latest
        · obtain ⟨latest, rfl⟩ := hu
          have hing : ingests s latest = false := by
            cases latest with
            | none => rfl
            | some g =>
              have := hq g (by simp)
              simp [ingests, h0, this]
          obtain ⟨a, b, _, _⟩ := OnUpdate_not_ingesting s latest hing
          exact ⟨by simp only [step]; rw [a, h0], by simp only [step]; rw [b, ht]⟩
        · obtain ⟨a, b, _⟩ := step_frame_other 0 s e hl (fun latest h => hu ⟨latest, h⟩)
          exact ⟨by rw [a, h0], by rw [b, ht]⟩
    cases hf : (step s e).fault with
    | some fl => rw [run_cons_fault s e es fl hf]; exact hstep
    | none =>
      rw [run_cons_ok s e es hf]
      exact ih _ hstep.1 hstep.2 (fun g hg => hq g (by simp [hg]))

/-- C3, as stated, fails: after a device loss and a restore, with the frame
source group started again, the cursor is 0; a well-formed frame whose
timestamp is 0 is then taken for the frame already consumed and is neither
copied nor uploaded. -/
theorem C3_zero_timestamp_not_ingested :
    afterRestore.photoVideoMediaFrameSourceGroupStarted = true ∧
    afterRestore.photoVideoMediaFrameSourceGroup ≠ none ∧
    afterRestore.cameraPreviewTimestamp = 0 ∧
    afterRestore.cameraPreviewTexture = none ∧
    contractHolds ⟨1, 1, [], []⟩ (pixel 0) = true ∧
    OnUpdate afterRestore (some (pixel 0)) =
      ⟨afterRestore, [.slateUpdate, .getLatestSensorFrame], none⟩ ∧
    copiedAndUploaded (OnUpdate afterRestore (some (pixel 0))).log = false := by
  decide

/-- C3 (amended): after `OnDeviceLost` the frame cursor is 0, the value that
stands for "none"; and once the frame source group is started again, with no
frame of a nonzero timestamp returned in between, a tick on which the source
returns a frame with a nonzero timestamp that meets the format and length
contract for a texture of its own size copies and uploads that frame. -/
theorem C3_cursor_reset_then_frame_ingested (s : AppMain) (es : List Event) (f : SensorFrame)
    (hq : ∀ g, Event.update (some g) ∈ es → g.timestamp = 0)
    (hstarted : (run (OnDeviceLost s).state es).state.photoVideoMediaFrameSourceGroupStarted = true)
    (hgroup : (run (OnDeviceLost s).state es).state.photoVideoMediaFrameSourceGroup ≠ none)
    (hT : f.timestamp ≠ 0)
    (hc : contractHolds ⟨f.pixelWidth, f.pixelHeight, [], []⟩ f = true) :
    (OnDeviceLost s).state.cameraPreviewTimestamp = 0 ∧
    (OnUpdate (run (OnDeviceLost s).state es).state (some f)).fault = none ∧
    copiedAndUploaded (OnUpdate (run (OnDeviceLost s).state es).state (some f)).log = true ∧
    copiesOf f.timestamp (OnUpdate (run (OnDeviceLost s).state es).state (some f)).log = 1 ∧
    (OnUpdate (run (OnDeviceLost s).state es).state (some f)).state.cameraPreviewTexture =
      some ⟨f.pixelWidth, f.pixelHeight, f.pixelBuffer, f.pixelBuffer⟩ ∧
    (OnUpdate (run (OnDeviceLost s).state es).state (some f)).state.cameraPreviewTimestamp =
      f.timestamp := by
  obtain ⟨h0, htex⟩ := run_cursor_zero es (OnDeviceLost s).state rfl rfl hq
  have hrec := run_handles es (OnDeviceLost s).state (fun h => absurd rfl h) hgroup
  generalize (run (OnDeviceLost s).state es).state = s2 at *
  obtain ⟨g, hg⟩ := Option.ne_none_iff_exists'.mp hgroup
  have hst : stagingTextureFor s2 f = ⟨f.pixelWidth, f.pixelHeight, [], []⟩ := by
    simp [stagingTextureFor, htex]
  have hcalls : stagingTextureCalls s2 f = [.textureNew f.pixelWidth f.pixelHeight] := by
    simp [stagingTextureCalls, htex]
  simp only [contractHolds, Bool.and_eq_true, decide_eq_true_eq] at hc
  have hpsd := processSensorData_copied s2 g f hstarted hg (by rw [h0]; exact fun h => hT h.symm)
    hc.1 (by rw [hst]; exact hc.2)
  rw [hst, hcalls] at hpsd
  have hcv0 := checkVoiceCommands_copiesOf f.timestamp s2
  simp only [copiesOf] at hcv0
  rw [OnUpdate_normal s2 (some f) (checkVoiceCommands_fault_none s2 hrec), hpsd]
  refine ⟨rfl, rfl, ?_, ?_, rfl, rfl⟩
  · simp [copiedAndUploaded, isCopy]
  · simp [copiesOf, List.countP_cons, List.countP_append, isCopyOf, hcv0]

/-- C3 witness: the amended claim after the device loss of `afterRestore`, for
a frame with timestamp 7 that follows one with timestamp 0. -/
theorem C3_cursor_reset_then_frame_ingested_witness :
    (OnUpdate (run (OnDeviceLost spaceReady).state
        [.deviceRestored, .groupStartCompleted, .update (some (pixel 0))]).state
      (some (pixel 7))).state.cameraPreviewTexture = some ⟨1, 1, [0, 0, 0, 255], [0, 0, 0, 255]⟩ :=
  (C3_cursor_reset_then_frame_ingested spaceReady
    [.deviceRestored, .groupStartCompleted, .update (some (pixel 0))] (pixel 7)
    (fun g h => by simp at h; subst h; rfl)
    (by decide) (by decide) (by decide) (by decide)).2.2.2.2.1

/-! ## C4: the stop command -/

theorem processSensorData_recorderCalls (s : AppMain) (latest : Option SensorFrame) :
    recorderCalls (processSensorData s latest).log = [] := by
  have h0 : ∀ f, recorderCalls (stagingTextureCalls s f) = [] := by
    intro f
    unfold stagingTextureCalls recorderCalls
    split <;> simp [isRecorderCall]
  refine processSensorData_cases s latest (fun o => recorderCalls o.log = []) ?_ ?_ ?_ ?_ ?_ ?_ ?_
  · intro _; rfl
  · intro _ _; rfl
  · intro _ _ _; rfl
  · intro f _ _ _ _; rfl
  · intro f _ _ _ _ _
    have := h0 f
    simp only [recorderCalls] at this ⊢
    simp [List.filter_cons, List.filter_append, isRecorderCall, this]
  · intro f _ _ _ _ _ _
    have := h0 f
    simp only [recorderCalls] at this ⊢
    simp [List.filter_cons, List.filter_append, isRecorderCall, this]
  · intro f _ _ _ _ _ _
    have := h0 f
    simp only [recorderCalls] at this ⊢
    simp [List.filter_cons, List.filter_append, isRecorderCall, this]

theorem OnUpdate_recorderCalls (s : AppMain) (latest : Option SensorFrame) :
    recorderCalls (OnUpdate s latest).log = recorderCalls (checkVoiceCommands s).log := by
  cases h : (checkVoiceCommands s).fault with
  | some e =>
    rw [OnUpdate_of_fault s latest e h]
    simp [recorderCalls, List.filter_cons, isRecorderCall]
  | none =>
    rw [OnUpdate_normal s latest h]
    have := processSensorData_recorderCalls s latest
    simp only [recorderCalls] at this ⊢
    simp [List.filter_cons, List.filter_append, isRecorderCall, this]

theorem OnUpdate_sensorFrameRecorder (s : AppMain) (latest : Option SensorFrame) :
    (OnUpdate s latest).state.sensorFrameRecorder = s.sensorFrameRecorder := by
  obtain ⟨a, p, b, ts, tex, h⟩ := OnUpdate_fields s latest
  rw [h]

/-- Where the recorder handle is present, a tick whose command is "stop" calls
the recorder's `Stop` exactly once (and makes no other recorder call) and leaves the started flag clear at
the end of the tick when the recorder is running; it makes no recorder call and
leaves the recorder's flag, handle and outstanding starts as they were when the
flag is clear. -/
theorem stop_tick_with_handle (s : AppMain) (latest : Option SensorFrame)
    (hc : s.lastVoiceCommand = some "stop") :
    (s.sensorFrameRecorderStarted = true → s.sensorFrameRecorder ≠ none →
      recorderCalls (OnUpdate s latest).log = [.recorderStop] ∧
      (OnUpdate s latest).state.sensorFrameRecorderStarted = false) ∧
    (s.sensorFrameRecorderStarted = false →
      recorderCalls (OnUpdate s latest).log = [] ∧
      (OnUpdate s latest).state.sensorFrameRecorderStarted = s.sensorFrameRecorderStarted ∧
      (OnUpdate s latest).state.sensorFrameRecorder = s.sensorFrameRecorder ∧
      (OnUpdate s latest).state.pendingRecorderStarts = s.pendingRecorderStarts) := by
  constructor
  · intro hs hr
    obtain ⟨r, hr2⟩ := Option.ne_none_iff_exists'.mp hr
    have hcv := checkVoiceCommands_stop_running s r hc hs hr2
    rw [OnUpdate_recorderCalls, OnUpdate_recorderStarted, hcv]
    exact ⟨rfl, rfl⟩
  · intro hs
    have hcv := checkVoiceCommands_stop_stopped s hc hs
    rw [OnUpdate_recorderCalls, OnUpdate_recorderStarted, OnUpdate_sensorFrameRecorder,
      OnUpdate_pendingRecorderStarts, hcv]
    exact ⟨rfl, rfl, rfl, rfl⟩

/-- An instance: a "stop" tick with the recorder running, on a tick that also
ingests a frame. -/
theorem stop_tick_with_handle_example :
    recorderCalls (OnUpdate runningStopHeard (some (pixel 5))).log = [.recorderStop] ∧
    (OnUpdate runningStopHeard (some (pixel 5))).state.sensorFrameRecorderStarted = false :=
  (stop_tick_with_handle runningStopHeard (some (pixel 5)) (by decide)).1 (by decide) (by decide)

/-- C4 on the code: at the state reached when the device is lost while the
recorder's `StartAsync` is outstanding and its continuation runs afterwards,
the started flag is set (Running) and the handle is null; a tick whose command
is "stop" then calls `Stop` through the null handle: no `Stop` call is made on
a recorder, the tick ends in a null-reference fault, and the flag stays set. -/
theorem C4_stop_tick_through_null_handle :
    (run initial [.holographicSpaceChanged speechOk, sayStart, .update none, .deviceLost,
      .recorderStartCompleted, sayStop]).fault = none ∧
    recorderStartedAfterLoss.lastVoiceCommand = some "stop" ∧
    recorderStartedAfterLoss.sensorFrameRecorderStarted = true ∧
    recorderStartedAfterLoss.sensorFrameRecorder = none ∧
    recorderCalls (OnUpdate recorderStartedAfterLoss none).log = [] ∧
    (OnUpdate recorderStartedAfterLoss none).fault = some .nullSensorFrameRecorder ∧
    (OnUpdate recorderStartedAfterLoss none).state.sensorFrameRecorderStarted = true := by
  decide

/-! ## C5: the command slot -/

theorem lastAccepted_cons (r : SpeechRecognitionResult) (rs : List SpeechRecognitionResult) :
    lastAccepted (r :: rs) = (lastAccepted rs).or (if accepted r then some r.text else none) := by
  unfold lastAccepted
  by_cases h : accepted r = true
  · have : (r :: rs).filter accepted = [r] ++ rs.filter accepted := by simp [List.filter_cons, h]
    rw [this, List.getLast?_append]
    cases (rs.filter accepted).getLast? <;> simp [h]
  · have : (r :: rs).filter accepted = rs.filter accepted := by simp [List.filter_cons, h]
    rw [this]
    cases (rs.filter accepted).getLast? <;> simp [h]

theorem step_resultGenerated (s : AppMain) (r : SpeechRecognitionResult) :
    (step s (.resultGenerated r)).state =
      { s with lastVoiceCommand := if accepted r then some r.text else s.lastVoiceCommand } ∧
    (step s (.resultGenerated r)).fault = none := by
  simp only [step, OnResultGenerated, accepted]
  split <;> simp_all

/-- After a sequence of results the slot holds the text of the last accepted
one, or what it held before when none was accepted; nothing else changes. -/
theorem run_results (rs : List SpeechRecognitionResult) :
    ∀ s : AppMain,
      (run s (rs.map Event.resultGenerated)).state =
        { s with lastVoiceCommand := (lastAccepted rs).or s.lastVoiceCommand } ∧
      (run s (rs.map Event.resultGenerated)).fault = none := by
  induction rs with
  | nil => intro s; simp [run, lastAccepted]
  | cons r rs ih =>
    intro s
    obtain ⟨hst, hf⟩ := step_resultGenerated s r
    rw [List.map_cons, run_cons_ok _ _ _ hf]
    obtain ⟨ih1, ih2⟩ := ih (step s (.resultGenerated r)).state
    refine ⟨?_, ih2⟩
    dsimp only
    generalize (step s (.resultGenerated r)).state = s1 at hst ih1
    rw [ih1, hst, lastAccepted_cons]
    by_cases h : accepted r = true <;> cases lastAccepted rs <;> simp [h]

theorem OnUpdate_slot_cleared (s : AppMain) (latest : Option SensorFrame)
    (h : (OnUpdate s latest).fault ≠ some .nullSensorFrameRecorder) :
    (OnUpdate s latest).state.lastVoiceCommand = none := by
  cases hcv : (checkVoiceCommands s).fault with
  | none => rw [OnUpdate_normal s latest hcv]
  | some e =>
    rw [OnUpdate_of_fault s latest e hcv] at h
    have : e = .nullSensorFrameRecorder := by
      revert hcv
      unfold checkVoiceCommands
      repeat' split
      all_goals simp
      all_goals exact fun h => h.symm
    exact absurd (by rw [this]) h

theorem checkVoiceCommands_no_command (s : AppMain) (h : s.lastVoiceCommand = none) :
    checkVoiceCommands s = ⟨s, [], none⟩ := by
  simp [checkVoiceCommands, h]

/-- A tick that does not fault on a null recorder handle leaves the slot
empty, also when frame ingestion returns early or faults; the results
delivered after it leave in the slot the text of the last one whose confidence
is High or Medium, or nothing when there is none, and change nothing else, and
that is the command the next tick's command check runs on; a Low or Rejected
result changes nothing; and a tick that follows a tick with no result in
between makes no recorder call and leaves the started flag as it was. -/
theorem command_slot_after_tick (s : AppMain) (rs : List SpeechRecognitionResult)
    (latest next : Option SensorFrame)
    (h : (OnUpdate s latest).fault ≠ some .nullSensorFrameRecorder) :
    (OnUpdate s latest).state.lastVoiceCommand = none ∧
    (run (OnUpdate s latest).state (rs.map Event.resultGenerated)).state =
      { (OnUpdate s latest).state with lastVoiceCommand := lastAccepted rs } ∧
    recorderCalls
        (OnUpdate (run (OnUpdate s latest).state (rs.map Event.resultGenerated)).state next).log =
      recorderCalls
        (checkVoiceCommands { (OnUpdate s latest).state with lastVoiceCommand := lastAccepted rs }).log ∧
    (∀ (t : AppMain) (r : SpeechRecognitionResult),
      r.confidence = .Low ∨ r.confidence = .Rejected → OnResultGenerated t r = ⟨t, [], none⟩) ∧
    recorderCalls (OnUpdate (OnUpdate s latest).state next).log = [] ∧
    (OnUpdate (OnUpdate s latest).state next).state.sensorFrameRecorderStarted =
      (OnUpdate s latest).state.sensorFrameRecorderStarted := by
  have hslot := OnUpdate_slot_cleared s latest h
  have hres := (run_results rs (OnUpdate s latest).state).1
  rw [hslot, Option.or_none] at hres
  have hcv := checkVoiceCommands_no_command (OnUpdate s latest).state hslot
  refine ⟨hslot, hres, ?_, ?_, ?_, ?_⟩
  · rw [OnUpdate_recorderCalls, hres]
  · intro t r hr
    rcases hr with hr | hr <;> simp [OnResultGenerated, hr]
  · rw [OnUpdate_recorderCalls, hcv]; rfl
  · rw [OnUpdate_recorderStarted, hcv]

/-- An instance: after a tick, a High "start" followed by a Low "stop" leaves
"start" in the slot. -/
theorem command_slot_after_tick_example :
    (run (OnUpdate runningStopHeard (some (pixel 5))).state
      ([⟨"start", .High⟩, ⟨"stop", .Low⟩].map Event.resultGenerated)).state =
      { (OnUpdate runningStopHeard (some (pixel 5))).state with lastVoiceCommand := some "start" } :=
  (command_slot_after_tick runningStopHeard [⟨"start", .High⟩, ⟨"stop", .Low⟩] (some (pixel 5)) none
    (by decide)).2.1

/-- C5 on the code: a "start" heard after the device was lost and before it is
restored finds the recorder handle null; the tick calls `StartAsync` through
it at line 104 and ends in a null-reference fault before line 123, so the slot
still holds "start" after the tick, and once the device is restored the next
tick acts on that same command and calls `StartAsync`. A "stop" tick at a set
flag with a null handle leaves "stop" in the slot in the same way. -/
theorem C5_slot_kept_by_faulting_tick :
    (run initial [.holographicSpaceChanged speechOk, .groupStartCompleted, .deviceLost,
      sayStart]).fault = none ∧
    startHeardAfterLoss.lastVoiceCommand = some "start" ∧
    startHeardAfterLoss.sensorFrameRecorderStarted = false ∧
    startHeardAfterLoss.sensorFrameRecorder = none ∧
    (OnUpdate startHeardAfterLoss none).fault = some .nullSensorFrameRecorder ∧
    (OnUpdate startHeardAfterLoss none).state.lastVoiceCommand = some "start" ∧
    (OnDeviceRestored (OnUpdate startHeardAfterLoss none).state).fault = none ∧
    recorderCalls
      (OnUpdate (OnDeviceRestored (OnUpdate startHeardAfterLoss none).state).state none).log =
      [.recorderStartAsync] ∧
    (OnUpdate recorderStartedAfterLoss none).state.lastVoiceCommand = some "stop" := by
  decide

/-! ## C6: starting speech recognition -/

/-- C6: `StartRecognizeSpeechCommands` completes with `true` exactly when a
recognizer was constructed, constraint compilation was run and reported
Success, and the continuous session's `StartAsync` was called and did not
throw (which is the case exactly when stopping the previous recognizer did not
throw and the platform lets the three steps succeed); and when constraint
compilation is run and throws or reports another status, the session's
`StartAsync` is not called, the recognizer is not listening and the task
completes with `false`. -/
theorem C6_speech_start_outcome (env : SpeechEnv) (s : AppMain) :
    ((StartRecognizeSpeechCommands env s).result = some true ↔
      (Call.recognizerNew ∈ (StartRecognizeSpeechCommands env s).log ∧
        env.recognizerCreated = true) ∧
      (Call.compileConstraintsAsync ∈ (StartRecognizeSpeechCommands env s).log ∧
        env.compilation = .status .Success) ∧
      (Call.sessionStartAsync ∈ (StartRecognizeSpeechCommands env s).log ∧
        env.sessionStartThrows = false)) ∧
    ((StartRecognizeSpeechCommands env s).result = some true ↔
      (s.speechRecognizer = none ∨ env.stopRecognitionThrows = false) ∧
        env.recognizerCreated = true ∧ env.compilation = .status .Success ∧
        env.sessionStartThrows = false) ∧
    (env.compilation ≠ .status .Success →
      Call.sessionStartAsync ∉ (StartRecognizeSpeechCommands env s).log ∧
      (StartRecognizeSpeechCommands env s).result ≠ some true ∧
      (∀ r, (StartRecognizeSpeechCommands env s).state.speechRecognizer = some r →
        r.listening = false ∨ (StartRecognizeSpeechCommands env s).result = none) ∧
      (Call.compileConstraintsAsync ∈ (StartRecognizeSpeechCommands env s).log →
        (StartRecognizeSpeechCommands env s).result = some false)) := by
  rcases env with ⟨a, b, c, d⟩
  unfold StartRecognizeSpeechCommands StopCurrentRecognizerIfExists InitializeSpeechRecognizer
    compileAndListen startContinuousSession setConstraints
  cases hs : s.speechRecognizer <;> cases a <;> cases b <;> cases d <;> cases c <;>
    simp
  all_goals
    rename_i st
    by_cases hst : st = .Success <;> simp [hst]

/-- C6 witness: when constraint compilation reports a grammar failure, the
session is not started and the task completes with `false` (scenario D). -/
theorem C6_speech_start_outcome_witness :
    Call.sessionStartAsync ∉
      (StartRecognizeSpeechCommands ⟨false, true, .status .GrammarCompilationFailure, false⟩
        initial).log ∧
    (StartRecognizeSpeechCommands ⟨false, true, .status .GrammarCompilationFailure, false⟩
      initial).result = some false :=
  ⟨((C6_speech_start_outcome ⟨false, true, .status .GrammarCompilationFailure, false⟩
      initial).2.2 (by decide)).1,
    ((C6_speech_start_outcome ⟨false, true, .status .GrammarCompilationFailure, false⟩
      initial).2.2 (by decide)).2.2.2 (by decide)⟩

/-! ## C7: device loss -/

/-- C7: `OnDeviceLost` drops the staging texture, resets the frame cursor to 0
(the "none" value), clears the frame source group handle and its started flag
and the recorder handle and its started flag, and leaves the recognizer (with
its two event subscriptions) and the command slot as they were; it does not
fault. -/
theorem C7_device_lost_effect (s : AppMain) :
    (OnDeviceLost s).state.cameraPreviewTexture = none ∧
    (OnDeviceLost s).state.cameraPreviewTimestamp = 0 ∧
    (OnDeviceLost s).state.photoVideoMediaFrameSourceGroup = none ∧
    (OnDeviceLost s).state.photoVideoMediaFrameSourceGroupStarted = false ∧
    (OnDeviceLost s).state.sensorFrameRecorder = none ∧
    (OnDeviceLost s).state.sensorFrameRecorderStarted = false ∧
    (OnDeviceLost s).state.speechRecognizer = s.speechRecognizer ∧
    (OnDeviceLost s).state.lastVoiceCommand = s.lastVoiceCommand ∧
    (OnDeviceLost s).fault = none :=
  ⟨rfl, rfl, rfl, rfl, rfl, rfl, rfl, rfl, rfl⟩

/-! ## C8: device loss followed by restore -/

/-- Through a run in which no tick gets past the early returns, an empty
staging texture stays empty. -/
theorem run_quiet_texture (es : List Event) :
    ∀ s : AppMain, s.cameraPreviewTexture = none → quiet s es = true →
      (run s es).state.cameraPreviewTexture = none := by
  induction es with
  | nil => intro s h _; simpa [run] using h
  | cons e es ih =>
    intro s h hq
    simp only [quiet, Bool.and_eq_true] at hq
    have hstep : (step s e).state.cameraPreviewTexture = none := by
      by_cases hl : e = .deviceLost
      · subst hl; rfl
      · by_cases hu : ∃ latest, e = .update latest
        · obtain ⟨latest, rfl⟩ := hu
          have hing : ingests s latest = false := by simpa using hq.1
          obtain ⟨_, b, _, _⟩ := OnUpdate_not_ingesting s latest hing
          simp only [step]; rw [b, h]
        · obtain ⟨_, b, _⟩ := step_frame_other 0 s e hl (fun latest h => hu ⟨latest, h⟩)
          rw [b, h]
    cases hf : (step s e).fault with
    | some fl => rw [run_cons_fault s e es fl hf]; exact hstep
    | none =>
      rw [run_cons_ok s e es hf]
      have hq2 := hq.2
      rw [hf] at hq2
      exact ih _ hstep hq2

theorem run_lost_restored (s : AppMain) (hsp : s.spatialPerception = true) :
    run s [.deviceLost, .deviceRestored] =
      ⟨{ (OnDeviceLost s).state with
          sensorFrameRecorder := some ⟨[.PhotoVideo]⟩
          photoVideoMediaFrameSourceGroup := some ⟨⟨[.PhotoVideo]⟩⟩
          pendingGroupStarts := s.pendingGroupStarts + 1 },
        [.slateReleaseDeviceDependentResources, .slateCreateDeviceDependentResources,
          .recorderNew, .recorderEnable .PhotoVideo, .groupNew, .groupStartAsync], none⟩ := by
  simp [run, step, OnDeviceLost, OnDeviceRestored, StartHoloLensMediaFrameSourceGroup, startGuard,
    hsp]

/-- C8: with spatial perception available, `OnDeviceLost` followed at once by
`OnDeviceRestored` meets the start guard (both started flags are clear), does
not fault, calls the frame source group's `StartAsync` exactly once, and
leaves the staging texture empty; the texture stays empty through every
continuation in which no tick gets past the early returns of frame ingestion,
and the tick that then does, with the group started, allocates it. -/
theorem C8_lost_then_restored (s : AppMain) (es : List Event) (latest : Option SensorFrame)
    (hsp : s.spatialPerception = true) :
    startGuard (OnDeviceLost s).state = true ∧
    (OnDeviceLost s).state.photoVideoMediaFrameSourceGroupStarted = false ∧
    (OnDeviceLost s).state.sensorFrameRecorderStarted = false ∧
    (run s [.deviceLost, .deviceRestored]).fault = none ∧
    (run s [.deviceLost, .deviceRestored]).log.count .groupStartAsync = 1 ∧
    (run s [.deviceLost, .deviceRestored]).state.cameraPreviewTexture = none ∧
    (quiet (run s [.deviceLost, .deviceRestored]).state es = true →
      (run (run s [.deviceLost, .deviceRestored]).state es).state.cameraPreviewTexture = none ∧
      (ingests (run (run s [.deviceLost, .deviceRestored]).state es).state latest = true →
        (run (run s [.deviceLost, .deviceRestored]).state es).state.photoVideoMediaFrameSourceGroup
          ≠ none →
        (OnUpdate (run (run s [.deviceLost, .deviceRestored]).state es).state
          latest).state.cameraPreviewTexture ≠ none)) := by
  have hrun := run_lost_restored s hsp
  refine ⟨by simp [startGuard, OnDeviceLost, hsp], rfl, rfl, by rw [hrun], by rw [hrun]; simp [List.count_cons],
    by rw [hrun]; rfl, ?_⟩
  intro hq
  have htex := run_quiet_texture es (run s [.deviceLost, .deviceRestored]).state
    (by rw [hrun]; rfl) hq
  refine ⟨htex, ?_⟩
  intro hing hgroup
  have hrec := run_handles es (run s [.deviceLost, .deviceRestored]).state
    (by rw [hrun]; simp) hgroup
  generalize (run (run s [.deviceLost, .deviceRestored]).state es).state = s2 at *
  rw [OnUpdate_normal s2 latest (checkVoiceCommands_fault_none s2 hrec)]
  cases latest with
  | none => simp [ingests] at hing
  | some f =>
    simp only [ingests, Bool.and_eq_true, decide_eq_true_eq] at hing
    refine processSensorData_cases s2 (some f)
      (fun o => ({ o.state with
          lastVoiceCommand := none
          pendingRecorderStarts := (checkVoiceCommands s2).state.pendingRecorderStarts
          sensorFrameRecorderStarted := (checkVoiceCommands s2).state.sensorFrameRecorderStarted } :
          AppMain).cameraPreviewTexture ≠ none) ?_ ?_ ?_ ?_ ?_ ?_ ?_
    · intro h; simp [hing.1] at h
    · intro _ h; exact absurd h hgroup
    · intro _ _ h; cases h
    · intro g _ _ hl ht
      cases hl
      exact absurd ht hing.2
    · intro g _ _ _ _ _; simp
    · intro g _ _ _ _ _ _; simp
    · intro g _ _ _ _ _ _; simp

/-- C8 witness: after a frame was ingested, a device loss and restore leaves
the texture empty through a tick without a frame. -/
theorem C8_lost_then_restored_witness :
    (run (run (run spaceReady [.groupStartCompleted, .update (some (pixel 100))]).state
        [.deviceLost, .deviceRestored]).state
      [.groupStartCompleted, .update none]).state.cameraPreviewTexture = none :=
  ((C8_lost_then_restored
    (run spaceReady [.groupStartCompleted, .update (some (pixel 100))]).state
    [.groupStartCompleted, .update none] (some (pixel 100)) (by decide)).2.2.2.2.2.2
      (by decide)).1

/-! ## C9: when a tick copies and uploads -/

theorem copiedAndUploaded_append_left (a b : List Call)
    (ha : ∀ c ∈ a, isCopy c = false ∧ c ≠ .copyCPU2GPU) :
    copiedAndUploaded (a ++ b) = copiedAndUploaded b := by
  have h1 : a.any isCopy = false := by
    rw [List.any_eq_false]
    intro c hc
    simp [(ha c hc).1]
  have h2 : a.contains Call.copyCPU2GPU = false := by
    rw [Bool.eq_false_iff]
    intro h
    have hmem : Call.copyCPU2GPU ∈ a := by simpa using h
    exact (ha _ hmem).2 rfl
  have h3 : (a ++ b).contains Call.copyCPU2GPU = b.contains Call.copyCPU2GPU := by
    have h2m : Call.copyCPU2GPU ∉ a := by simpa using h2
    rw [Bool.eq_iff_iff]
    simp [h2m]
  unfold copiedAndUploaded
  rw [List.any_append, h1, h3, Bool.false_or]

theorem checkVoiceCommands_log_plain (s : AppMain) :
    ∀ c ∈ Call.slateUpdate :: (checkVoiceCommands s).log, isCopy c = false ∧ c ≠ .copyCPU2GPU := by
  unfold checkVoiceCommands
  repeat' split
  all_goals simp [isCopy]

theorem processSensorData_copiedAndUploaded (s : AppMain) (latest : Option SensorFrame) :
    copiedAndUploaded (processSensorData s latest).log = true ↔
      s.photoVideoMediaFrameSourceGroup ≠ none ∧
        ∃ f, latest = some f ∧ ingests s latest = true ∧
          contractHolds (stagingTextureFor s f) f = true := by
  have hcalls : ∀ f, ∀ c ∈ Call.getLatestSensorFrame :: stagingTextureCalls s f ++ [.mapCPUTexture],
      isCopy c = false ∧ c ≠ .copyCPU2GPU := by
    intro f
    unfold stagingTextureCalls
    split <;> simp [isCopy]
  refine processSensorData_cases s latest
    (fun o => copiedAndUploaded o.log = true ↔
      s.photoVideoMediaFrameSourceGroup ≠ none ∧
        ∃ f, latest = some f ∧ ingests s latest = true ∧
          contractHolds (stagingTextureFor s f) f = true) ?_ ?_ ?_ ?_ ?_ ?_ ?_
  · intro h
    simp only [copiedAndUploaded, List.any_nil, Bool.false_and, Bool.false_eq_true, false_iff]
    rintro ⟨_, f, rfl, hi, _⟩
    simp [ingests, h] at hi
  · intro _ hg
    simp [copiedAndUploaded, hg]
  · intro _ _ hl
    simp [copiedAndUploaded, isCopy, hl]
  · intro f _ _ hl ht
    subst hl
    simp [copiedAndUploaded, isCopy, ingests, ht]
  · intro f _ _ hl _ hf
    subst hl
    have h0 := copiedAndUploaded_append_left _ [] (hcalls f)
    rw [List.append_nil] at h0
    rw [h0]
    simp [copiedAndUploaded, contractHolds, hf]
  · intro f _ _ hl _ _ hlen
    subst hl
    rw [copiedAndUploaded_append_left _ _ (hcalls f)]
    simp [copiedAndUploaded, isCopy, contractHolds, hlen]
  · intro f hs hg hl ht hf hlen
    subst hl
    rw [copiedAndUploaded_append_left _ _ (hcalls f)]
    simp [copiedAndUploaded, isCopy, contractHolds, hlen, hf, ingests, hs, ht, hg]

theorem OnUpdate_copiedAndUploaded (s : AppMain) (latest : Option SensorFrame) :
    copiedAndUploaded (OnUpdate s latest).log = true ↔
      (checkVoiceCommands s).fault = none ∧ s.photoVideoMediaFrameSourceGroup ≠ none ∧
        ∃ f, latest = some f ∧ ingests s latest = true ∧
          contractHolds (stagingTextureFor s f) f = true := by
  cases h : (checkVoiceCommands s).fault with
  | some e =>
    rw [OnUpdate_of_fault s latest e h]
    have h0 := copiedAndUploaded_append_left _ [] (checkVoiceCommands_log_plain s)
    rw [List.append_nil] at h0
    simp only [h0]
    simp [copiedAndUploaded]
  | none =>
    rw [OnUpdate_normal s latest h]
    have h0 := copiedAndUploaded_append_left _ (processSensorData s latest).log
      (checkVoiceCommands_log_plain s)
    simp only [h0, processSensorData_copiedAndUploaded, true_and]

theorem OnUpdate_then_same_timestamp (s : AppMain) (f g : SensorFrame)
    (hfg : f.timestamp = g.timestamp) (hfault : (OnUpdate s (some f)).fault = none) :
    ingests (OnUpdate s (some f)).state (some g) = false := by
  cases hcv : (checkVoiceCommands s).fault with
  | some e => rw [OnUpdate_of_fault s (some f) e hcv] at hfault; cases hfault
  | none =>
    rw [OnUpdate_normal s (some f) hcv] at hfault ⊢
    revert hfault
    refine processSensorData_cases s (some f)
      (fun o => o.fault = none →
        ingests { o.state with
          lastVoiceCommand := none
          pendingRecorderStarts := (checkVoiceCommands s).state.pendingRecorderStarts
          sensorFrameRecorderStarted := (checkVoiceCommands s).state.sensorFrameRecorderStarted }
          (some g) = false) ?_ ?_ ?_ ?_ ?_ ?_ ?_
    · intro h _; simp [ingests, h]
    · intro _ _ h; cases h
    · intro _ _ h; cases h
    · intro f2 _ _ hl ht _
      cases hl
      simp [ingests, ht, hfg]
    · intro _ _ _ _ _ _ h; cases h
    · intro _ _ _ _ _ _ _ h; cases h
    · intro f2 _ _ hl _ _ _ _
      cases hl
      simp [ingests, hfg]

/-- C9, as stated, fails: with the group started and a 1×1 texture staged, the
source returns a well-formed 2×1 frame with a new timestamp; the three
conditions hold, yet the length assertion fails, so nothing is copied or
uploaded, while the cursor has moved to the frame's timestamp. -/
theorem C9_three_conditions_without_copy :
    firstFrameIngested.photoVideoMediaFrameSourceGroupStarted = true ∧
    firstFrameIngested.cameraPreviewTimestamp ≠ (wide 200).timestamp ∧
    ingests firstFrameIngested (some (wide 200)) = true ∧
    contractHolds ⟨2, 1, [], []⟩ (wide 200) = true ∧
    copiedAndUploaded (OnUpdate firstFrameIngested (some (wide 200))).log = false ∧
    (OnUpdate firstFrameIngested (some (wide 200))).fault = some .assertFailed ∧
    (OnUpdate firstFrameIngested (some (wide 200))).state.cameraPreviewTimestamp = 200 := by
  decide

/-- C9 (amended): a tick copies and uploads a camera frame exactly when it gets
past the command check, the frame source group is present with its started
flag set, the source returns a frame whose timestamp differs from the cursor,
and the frame meets the format and length contract of the staging texture.
Whenever the tick gets that far the cursor becomes the frame's timestamp, also
when a contract check then fails. When the flag is clear, no frame is returned
or the timestamp equals the cursor, the cursor and the staging texture are left
as they were and nothing is copied or uploaded. Hence a tick that returns the
timestamp of the frame of the tick before it copies and uploads nothing. -/
theorem C9_tick_copies_iff (s : AppMain) (latest : Option SensorFrame) :
    (copiedAndUploaded (OnUpdate s latest).log = true ↔
      (checkVoiceCommands s).fault = none ∧ s.photoVideoMediaFrameSourceGroup ≠ none ∧
        ∃ f, latest = some f ∧ ingests s latest = true ∧
          contractHolds (stagingTextureFor s f) f = true) ∧
    (∀ f, latest = some f → (checkVoiceCommands s).fault = none →
      s.photoVideoMediaFrameSourceGroup ≠ none → ingests s latest = true →
      (OnUpdate s latest).state.cameraPreviewTimestamp = f.timestamp) ∧
    (ingests s latest = false →
      (OnUpdate s latest).state.cameraPreviewTimestamp = s.cameraPreviewTimestamp ∧
      (OnUpdate s latest).state.cameraPreviewTexture = s.cameraPreviewTexture ∧
      (∀ c ∈ (OnUpdate s latest).log, isCopy c = false) ∧
      Call.copyCPU2GPU ∉ (OnUpdate s latest).log) ∧
    (∀ f g : SensorFrame, latest = some f → f.timestamp = g.timestamp →
      (OnUpdate s latest).fault = none →
      copiedAndUploaded (OnUpdate (OnUpdate s latest).state (some g)).log = false) := by
  refine ⟨OnUpdate_copiedAndUploaded s latest, ?_, OnUpdate_not_ingesting s latest, ?_⟩
  · intro f hl hcv hg hi
    subst hl
    simp only [ingests, Bool.and_eq_true, decide_eq_true_eq] at hi
    rw [OnUpdate_normal s (some f) hcv]
    refine processSensorData_cases s (some f)
      (fun o => ({ o.state with
          lastVoiceCommand := none
          pendingRecorderStarts := (checkVoiceCommands s).state.pendingRecorderStarts
          sensorFrameRecorderStarted := (checkVoiceCommands s).state.sensorFrameRecorderStarted } :
          AppMain).cameraPreviewTimestamp = f.timestamp) ?_ ?_ ?_ ?_ ?_ ?_ ?_
    · intro h; simp [hi.1] at h
    · intro _ h; exact absurd h hg
    · intro _ _ h; cases h
    · intro f2 _ _ hl ht
      cases hl
      exact absurd ht hi.2
    · intro f2 _ _ hl _ _; cases hl; rfl
    · intro f2 _ _ hl _ _ _; cases hl; rfl
    · intro f2 _ _ hl _ _ _; cases hl; rfl
  · intro f g hl hfg hfault
    subst hl
    have hi := OnUpdate_then_same_timestamp s f g hfg hfault
    rw [Bool.eq_false_iff]
    intro hc
    obtain ⟨_, _, f2, hf2, hi2, _⟩ := (OnUpdate_copiedAndUploaded _ _).mp hc
    rw [hi] at hi2
    cases hi2

/-- C9 witness (scenario C): the timestamp 100 on two consecutive ticks; the
first tick copies and uploads, the second does not. -/
theorem C9_tick_copies_iff_witness :
    copiedAndUploaded
      (OnUpdate (run spaceReady [.groupStartCompleted]).state (some (pixel 100))).log = true ∧
    copiedAndUploaded
      (OnUpdate (OnUpdate (run spaceReady [.groupStartCompleted]).state (some (pixel 100))).state
        (some (pixel 100))).log = false :=
  ⟨(C9_tick_copies_iff (run spaceReady [.groupStartCompleted]).state (some (pixel 100))).1.mpr
      ⟨by decide, by decide, pixel 100, rfl, by decide, by decide⟩,
    (C9_tick_copies_iff (run spaceReady [.groupStartCompleted]).state (some (pixel 100))).2.2.2
      (pixel 100) (pixel 100) rfl rfl (by decide)⟩

/-! ## C10: the staging texture's size and contents -/

theorem stagingTextureFor_some (s : AppMain) (f : SensorFrame) (t : Texture2D)
    (h : s.cameraPreviewTexture = some t) : stagingTextureFor s f = t := by
  simp [stagingTextureFor, h]

theorem OnUpdate_texture_dims (s : AppMain) (latest : Option SensorFrame) (t : Texture2D)
    (h : s.cameraPreviewTexture = some t) :
    ∃ t2, (OnUpdate s latest).state.cameraPreviewTexture = some t2 ∧
      t2.width = t.width ∧ t2.height = t.height := by
  cases hcv : (checkVoiceCommands s).fault with
  | some e =>
    obtain ⟨p, b, hf⟩ := checkVoiceCommands_recorder_fields s
    rw [OnUpdate_of_fault s latest e hcv]
    exact ⟨t, by rw [hf]; exact h, rfl, rfl⟩
  | none =>
    rw [OnUpdate_normal s latest hcv]
    refine processSensorData_cases s latest
      (fun o => ∃ t2, ({ o.state with
          lastVoiceCommand := none
          pendingRecorderStarts := (checkVoiceCommands s).state.pendingRecorderStarts
          sensorFrameRecorderStarted := (checkVoiceCommands s).state.sensorFrameRecorderStarted } :
          AppMain).cameraPreviewTexture = some t2 ∧ t2.width = t.width ∧ t2.height = t.height)
      ?_ ?_ ?_ ?_ ?_ ?_ ?_
    · intro _; exact ⟨t, h, rfl, rfl⟩
    · intro _ _; exact ⟨t, h, rfl, rfl⟩
    · intro _ _ _; exact ⟨t, h, rfl, rfl⟩
    · intro f _ _ _ _; exact ⟨t, h, rfl, rfl⟩
    · intro f _ _ _ _ _
      exact ⟨t, by simp [stagingTextureFor_some s f t h], rfl, rfl⟩
    · intro f _ _ _ _ _ _
      exact ⟨t, by simp [stagingTextureFor_some s f t h], rfl, rfl⟩
    · intro f _ _ _ _ _ _
      exact ⟨{ t with cpuTexture := f.pixelBuffer, gpuTexture := f.pixelBuffer },
        by simp [stagingTextureFor_some s f t h], rfl, rfl⟩

/-- Without a device loss, a staging texture keeps its width and height. -/
theorem run_texture_dims (es : List Event) :
    ∀ (s : AppMain) (t : Texture2D), Event.deviceLost ∉ es → s.cameraPreviewTexture = some t →
      ∃ t2, (run s es).state.cameraPreviewTexture = some t2 ∧
        t2.width = t.width ∧ t2.height = t.height := by
  induction es with
  | nil => intro s t _ h; exact ⟨t, by simpa [run] using h, rfl, rfl⟩
  | cons e es ih =>
    intro s t hl h
    have hle : e ≠ .deviceLost := fun h => hl (by simp [h])
    have hl2 : Event.deviceLost ∉ es := fun h => hl (by simp [h])
    have hstep : ∃ t2, (step s e).state.cameraPreviewTexture = some t2 ∧
        t2.width = t.width ∧ t2.height = t.height := by
      by_cases hu : ∃ latest, e = .update latest
      · obtain ⟨latest, rfl⟩ := hu
        exact OnUpdate_texture_dims s latest t h
      · obtain ⟨_, b, _⟩ := step_frame_other 0 s e hle (fun latest h => hu ⟨latest, h⟩)
        exact ⟨t, by rw [b, h], rfl, rfl⟩
    cases hf : (step s e).fault with
    | some fl => rw [run_cons_fault s e es fl hf]; exact hstep
    | none =>
      rw [run_cons_ok s e es hf]
      obtain ⟨t2, h2, hw, hh⟩ := hstep
      obtain ⟨t3, h3, hw3, hh3⟩ := ih (step s e).state t2 hl2 h2
      exact ⟨t3, h3, hw3.trans hw, hh3.trans hh⟩

theorem toUInt32_bytesToCopy (t : Texture2D) (h0 : 0 ≤ t.width * t.height * 4)
    (h1 : t.width * t.height * 4 < 2 ^ 31) (n : Nat) :
    toUInt32 (bytesToCopy t) = n ↔ (n : Int) = t.width * t.height * 4 := by
  unfold toUInt32 bytesToCopy wrapInt32
  generalize t.width * t.height * 4 = x at h0 h1
  omega

/-- C10: on a tick that gets to the copy (command check passed, group present
and started, a `Bgra8` frame with a new timestamp) and whose staging size
fits the `int32_t` product: the staging texture is the one already there or,
when there was none, a new one with the frame's width and height; it has that
width and height after the tick and after any later events short of a device
loss; the frame is copied exactly when its byte length is staging width ×
height × 4, and then the staged and uploaded bytes are the frame's bytes; when
the length differs the length assertion fails, nothing is copied or uploaded
and the staged bytes stay as they were. -/
theorem C10_staging_texture (s : AppMain) (f : SensorFrame) (es : List Event)
    (hcv : (checkVoiceCommands s).fault = none)
    (hg : s.photoVideoMediaFrameSourceGroup ≠ none)
    (hi : ingests s (some f) = true)
    (hf : f.bitmapPixelFormat = .Bgra8)
    (h0 : 0 ≤ (stagingTextureFor s f).width * (stagingTextureFor s f).height * 4)
    (h1 : (stagingTextureFor s f).width * (stagingTextureFor s f).height * 4 < 2 ^ 31) :
    (s.cameraPreviewTexture = none →
      (stagingTextureFor s f).width = f.pixelWidth ∧
      (stagingTextureFor s f).height = f.pixelHeight ∧
      Call.textureNew f.pixelWidth f.pixelHeight ∈ (OnUpdate s (some f)).log) ∧
    (∀ t, s.cameraPreviewTexture = some t →
      stagingTextureFor s f = t ∧ ∀ w h, Call.textureNew w h ∉ (OnUpdate s (some f)).log) ∧
    (∃ t2, (OnUpdate s (some f)).state.cameraPreviewTexture = some t2 ∧
      t2.width = (stagingTextureFor s f).width ∧ t2.height = (stagingTextureFor s f).height ∧
      (Event.deviceLost ∉ es →
        ∃ t3, (run (OnUpdate s (some f)).state es).state.cameraPreviewTexture = some t3 ∧
          t3.width = t2.width ∧ t3.height = t2.height)) ∧
    ((∃ c ∈ (OnUpdate s (some f)).log, isCopy c = true) →
      (f.pixelBuffer.length : Int) =
        (stagingTextureFor s f).width * (stagingTextureFor s f).height * 4) ∧
    ((f.pixelBuffer.length : Int) =
        (stagingTextureFor s f).width * (stagingTextureFor s f).height * 4 →
      (OnUpdate s (some f)).fault = none ∧
      (OnUpdate s (some f)).state.cameraPreviewTexture = some
        { stagingTextureFor s f with cpuTexture := f.pixelBuffer, gpuTexture := f.pixelBuffer } ∧
      Call.memcpy_s f.timestamp f.pixelBuffer.length ∈ (OnUpdate s (some f)).log ∧
      copiedAndUploaded (OnUpdate s (some f)).log = true) ∧
    ((f.pixelBuffer.length : Int) ≠
        (stagingTextureFor s f).width * (stagingTextureFor s f).height * 4 →
      (OnUpdate s (some f)).fault = some .assertFailed ∧
      (OnUpdate s (some f)).state.cameraPreviewTexture = some (stagingTextureFor s f) ∧
      (∀ c ∈ (OnUpdate s (some f)).log, isCopy c = false) ∧
      Call.copyCPU2GPU ∉ (OnUpdate s (some f)).log) := by
  obtain ⟨g, hg2⟩ := Option.ne_none_iff_exists'.mp hg
  simp only [ingests, Bool.and_eq_true, decide_eq_true_eq] at hi
  obtain ⟨hs, ht⟩ := hi
  have hlen := toUInt32_bytesToCopy (stagingTextureFor s f) h0 h1 f.pixelBuffer.length
  have hplain := checkVoiceCommands_log_plain s
  have hnew : ∀ w h, Call.textureNew w h ∉ Call.slateUpdate :: (checkVoiceCommands s).log := by
    intro w h
    unfold checkVoiceCommands
    repeat' split
    all_goals simp
  rw [OnUpdate_normal s (some f) hcv]
  by_cases hl : toUInt32 (bytesToCopy (stagingTextureFor s f)) = f.pixelBuffer.length
  · have hl2 := hlen.mp hl
    rw [processSensorData_copied s g f hs hg2 ht hf hl]
    refine ⟨?_, ?_, ?_, fun _ => hl2, fun _ => ⟨rfl, rfl, by simp, ?_⟩, fun h => absurd hl2 h⟩
    · intro hnone
      simp [stagingTextureFor, stagingTextureCalls, hnone]
    · intro t hsome
      refine ⟨stagingTextureFor_some s f t hsome, fun w h hmem => ?_⟩
      simp only [stagingTextureCalls, hsome, List.cons_append, List.mem_cons, List.mem_append] at hmem
      have := hnew w h
      simp_all
    · refine ⟨_, rfl, rfl, rfl, fun hlost => ?_⟩
      exact run_texture_dims es _ _ hlost rfl
    · have h0 := copiedAndUploaded_append_left _
        (Call.getLatestSensorFrame :: stagingTextureCalls s f ++ [Call.mapCPUTexture] ++
          [Call.lockBuffer, Call.memcpy_s f.timestamp f.pixelBuffer.length, Call.unmapCPUTexture,
            Call.copyCPU2GPU]) hplain
      simp only [List.cons_append] at h0 ⊢
      rw [h0]
      simp [copiedAndUploaded, isCopy]
  · have hl2 : ¬ (f.pixelBuffer.length : Int) =
        (stagingTextureFor s f).width * (stagingTextureFor s f).height * 4 :=
      fun h => hl (hlen.mpr h)
    rw [processSensorData_assert_failed s g f hs hg2 ht hf hl]
    have hno : ∀ c ∈ Call.slateUpdate :: (checkVoiceCommands s).log ++
        (Call.getLatestSensorFrame :: stagingTextureCalls s f ++ [Call.mapCPUTexture] ++
          [Call.lockBuffer]), isCopy c = false ∧ c ≠ .copyCPU2GPU := by
      intro c hc
      rcases List.mem_append.mp hc with hc | hc
      · exact hplain c hc
      · revert hc
        unfold stagingTextureCalls
        split <;> simp <;> rintro (rfl | rfl | rfl | rfl) <;> simp [isCopy]
    refine ⟨?_, ?_, ?_, ?_, fun h => absurd h hl2, fun _ => ⟨rfl, rfl, fun c hc => (hno c hc).1,
      fun hc => (hno _ hc).2 rfl⟩⟩
    · intro hnone
      simp [stagingTextureFor, stagingTextureCalls, hnone]
    · intro t hsome
      refine ⟨stagingTextureFor_some s f t hsome, fun w h hmem => ?_⟩
      simp only [stagingTextureCalls, hsome, List.cons_append, List.mem_cons, List.mem_append] at hmem
      have := hnew w h
      simp_all
    · refine ⟨_, rfl, rfl, rfl, fun hlost => ?_⟩
      exact run_texture_dims es _ _ hlost rfl
    · rintro ⟨c, hc, hcopy⟩
      rw [(hno c hc).1] at hcopy
      cases hcopy

/-- C10 witness: with a 1×1 texture staged, a 1×1 frame with a new timestamp
is copied byte for byte, and a 2×1 frame fails the length assertion. -/
theorem C10_staging_texture_witness :
    (OnUpdate firstFrameIngested (some (pixel 200))).state.cameraPreviewTexture =
      some ⟨1, 1, [0, 0, 0, 255], [0, 0, 0, 255]⟩ ∧
    (OnUpdate firstFrameIngested (some (wide 200))).fault = some .assertFailed :=
  ⟨((C10_staging_texture firstFrameIngested (pixel 200) [] (by decide) (by decide) (by decide)
      (by decide) (by decide) (by decide)).2.2.2.2.1 (by decide)).2.1,
    ((C10_staging_texture firstFrameIngested (wide 200) [] (by decide) (by decide) (by decide)
      (by decide) (by decide) (by decide)).2.2.2.2.2 (by decide)).1⟩

/-! ## C11: started flags and handles -/

theorem handles_iff (s : AppMain) :
    (flagsHaveHandles s = true ∧ startsHaveHandles s = true) ↔
      (s.sensorFrameRecorderStarted = true → s.sensorFrameRecorder ≠ none) ∧
      (s.photoVideoMediaFrameSourceGroupStarted = true →
        s.photoVideoMediaFrameSourceGroup ≠ none) ∧
      (s.pendingRecorderStarts ≠ 0 → s.sensorFrameRecorder ≠ none) ∧
      (s.pendingGroupStarts ≠ 0 → s.photoVideoMediaFrameSourceGroup ≠ none) := by
  unfold flagsHaveHandles startsHaveHandles
  cases s.sensorFrameRecorderStarted <;> cases s.photoVideoMediaFrameSourceGroupStarted <;>
    cases s.sensorFrameRecorder <;> cases s.photoVideoMediaFrameSourceGroup <;>
    by_cases h1 : s.pendingRecorderStarts = 0 <;> by_cases h2 : s.pendingGroupStarts = 0 <;>
    simp [h1, h2]

theorem StartHoloLensMediaFrameSourceGroup_handles (s : AppMain)
    (h : flagsHaveHandles s = true ∧ startsHaveHandles s = true) :
    flagsHaveHandles (StartHoloLensMediaFrameSourceGroup s).state = true ∧
      startsHaveHandles (StartHoloLensMediaFrameSourceGroup s).state = true := by
  unfold StartHoloLensMediaFrameSourceGroup
  split
  · exact h
  · rw [handles_iff]
    simp

theorem checkVoiceCommands_handles (s : AppMain)
    (h : flagsHaveHandles s = true ∧ startsHaveHandles s = true) :
    flagsHaveHandles (checkVoiceCommands s).state = true ∧
      startsHaveHandles (checkVoiceCommands s).state = true := by
  rw [handles_iff] at h ⊢
  unfold checkVoiceCommands
  repeat' split
  all_goals simp_all

/-- One event keeps a set flag and an outstanding start with their handles,
unless it is a device loss that comes while a start is outstanding. -/
theorem step_flags_have_handles (s : AppMain) (e : Event)
    (h : flagsHaveHandles s = true ∧ startsHaveHandles s = true)
    (hl : e = .deviceLost → s.pendingRecorderStarts = 0 ∧ s.pendingGroupStarts = 0) :
    flagsHaveHandles (step s e).state = true ∧ startsHaveHandles (step s e).state = true := by
  cases e with
  | holographicSpaceChanged env =>
    have h1 := StartHoloLensMediaFrameSourceGroup_handles s h
    obtain ⟨⟨r, hr⟩, _⟩ := StartRecognizeSpeechCommands_fields env
      (StartHoloLensMediaFrameSourceGroup s).state
    simp only [step, OnHolographicSpaceChanged]
    split
    · exact h1
    · rw [handles_iff] at h1 ⊢
      simp only [hr]
      exact h1
  | resultGenerated r =>
    rw [handles_iff] at h ⊢
    simp only [step, OnResultGenerated]
    split <;> exact h
  | update latest =>
    have h1 := checkVoiceCommands_handles s h
    obtain ⟨p, b, hcv⟩ := checkVoiceCommands_recorder_fields s
    simp only [step]
    cases hf : (checkVoiceCommands s).fault with
    | some fl => rw [OnUpdate_of_fault s latest fl hf]; exact h1
    | none =>
      rw [OnUpdate_normal s latest hf]
      obtain ⟨ts, tex, hp⟩ := processSensorData_frame_fields s latest
      rw [handles_iff] at h1 ⊢
      rw [hcv] at h1
      simp only [hp, hcv]
      exact h1
  | recorderStartCompleted =>
    rw [handles_iff] at h ⊢
    simp only [step, recorderStartCompleted]
    split
    · exact h
    · rename_i hp
      refine ⟨fun _ => h.2.2.1 hp, h.2.1, fun _ => h.2.2.1 hp, h.2.2.2⟩
  | groupStartCompleted =>
    rw [handles_iff] at h ⊢
    simp only [step, groupStartCompleted]
    split
    · exact h
    · rename_i hp
      refine ⟨h.1, fun _ => h.2.2.2 hp, h.2.2.1, fun _ => h.2.2.2 hp⟩
  | deviceLost =>
    obtain ⟨hr, hg⟩ := hl rfl
    rw [handles_iff]
    simp [step, OnDeviceLost, hr, hg]
  | deviceRestored =>
    simp only [step, OnDeviceRestored]
    exact StartHoloLensMediaFrameSourceGroup_handles s h

/-- In a run whose device losses all come with no `StartAsync` outstanding, a
set started flag keeps its handle. -/
theorem run_flags_have_handles (es : List Event) :
    ∀ s : AppMain, flagsHaveHandles s = true ∧ startsHaveHandles s = true →
      lossesSettled s es = true →
      flagsHaveHandles (run s es).state = true ∧ startsHaveHandles (run s es).state = true := by
  induction es with
  | nil => intro s h _; simpa [run] using h
  | cons e es ih =>
    intro s h hq
    simp only [lossesSettled, Bool.and_eq_true] at hq
    have hl : e = .deviceLost → s.pendingRecorderStarts = 0 ∧ s.pendingGroupStarts = 0 := by
      intro he
      subst he
      simpa using hq.1
    have hstep := step_flags_have_handles s e h hl
    cases hf : (step s e).fault with
    | some fl => rw [run_cons_fault s e es fl hf]; exact hstep
    | none =>
      rw [run_cons_ok s e es hf]
      have hq2 := hq.2
      rw [hf] at hq2
      exact ih _ hstep hq2

/-- Where a set flag has its handle, the `Stop` call and the
`GetLatestSensorFrame` call of a tick go through a handle that is there. -/
theorem OnUpdate_handles_present (s : AppMain) (latest : Option SensorFrame)
    (h : flagsHaveHandles s = true) :
    (OnUpdate s latest).fault ≠ some .nullMediaFrameSourceGroup ∧
    (s.lastVoiceCommand = some "stop" →
      (OnUpdate s latest).fault ≠ some .nullSensorFrameRecorder) := by
  simp only [flagsHaveHandles, Bool.and_eq_true, Bool.or_eq_true, Bool.not_eq_true',
    Option.isSome_iff_ne_none] at h
  obtain ⟨hr, hg⟩ := h
  have hpsd : (processSensorData s latest).fault ≠ some .nullMediaFrameSourceGroup ∧
      (processSensorData s latest).fault ≠ some .nullSensorFrameRecorder := by
    refine processSensorData_cases s latest
      (fun o => o.fault ≠ some .nullMediaFrameSourceGroup ∧
        o.fault ≠ some .nullSensorFrameRecorder) ?_ ?_ ?_ ?_ ?_ ?_ ?_
    · intro _; simp
    · intro hs hn
      rcases hg with hg | hg
      · rw [hs] at hg; cases hg
      · exact absurd hn hg
    · intro _ _ _; simp
    · intro _ _ _ _ _; simp
    · intro _ _ _ _ _ _; simp
    · intro _ _ _ _ _ _ _; simp
    · intro _ _ _ _ _ _ _; simp
  have hcvfault : ∀ e, (checkVoiceCommands s).fault = some e → e = .nullSensorFrameRecorder := by
    intro e
    unfold checkVoiceCommands
    repeat' split
    all_goals simp
    all_goals exact fun h => h.symm
  constructor
  · cases hf : (checkVoiceCommands s).fault with
    | some e =>
      rw [OnUpdate_of_fault s latest e hf, hcvfault e hf]
      simp
    | none => rw [OnUpdate_normal s latest hf]; exact hpsd.1
  · intro hc
    have hcv : (checkVoiceCommands s).fault = none := by
      cases hs : s.sensorFrameRecorderStarted with
      | false => rw [checkVoiceCommands_stop_stopped s hc hs]
      | true =>
        rcases hr with hr | hr
        · rw [hs] at hr; cases hr
        · obtain ⟨r, hr2⟩ := Option.ne_none_iff_exists'.mp hr
          rw [checkVoiceCommands_stop_running s r hc hs hr2]
    rw [OnUpdate_normal s latest hcv]
    exact hpsd.2

/-- C11 on the code: when `OnDeviceLost` comes while a `StartAsync` is
outstanding and the continuation runs afterwards, the started flag is set with
a null handle, for the frame source group and for the recorder alike. The next
tick then calls `GetLatestSensorFrame`, or `Stop`, through the null handle,
and `OnDeviceRestored` fails the guard of line 495. -/
theorem C11_started_flag_with_null_handle :
    flagsHaveHandles initial = true ∧
    (run initial [.holographicSpaceChanged speechOk, .deviceLost, .groupStartCompleted]).fault
      = none ∧
    groupStartedAfterLoss.photoVideoMediaFrameSourceGroupStarted = true ∧
    groupStartedAfterLoss.photoVideoMediaFrameSourceGroup = none ∧
    flagsHaveHandles groupStartedAfterLoss = false ∧
    (OnUpdate groupStartedAfterLoss (some (pixel 100))).fault = some .nullMediaFrameSourceGroup ∧
    (OnDeviceRestored groupStartedAfterLoss).fault = some .requiresFailed ∧
    (run initial [.holographicSpaceChanged speechOk, sayStart, .update none, .deviceLost,
      .recorderStartCompleted, sayStop]).fault = none ∧
    recorderStartedAfterLoss.sensorFrameRecorderStarted = true ∧
    recorderStartedAfterLoss.sensorFrameRecorder = none ∧
    flagsHaveHandles recorderStartedAfterLoss = false ∧
    recorderStartedAfterLoss.lastVoiceCommand = some "stop" ∧
    (OnUpdate recorderStartedAfterLoss none).fault = some .nullSensorFrameRecorder ∧
    Call.recorderStop ∉ (OnUpdate recorderStartedAfterLoss none).log ∧
    (OnDeviceRestored recorderStartedAfterLoss).fault = some .requiresFailed := by
  decide

end Recorder
